import Mathlib

/-!
# Writing-Coach plugin: shallow embedding and verification

This file embeds the behavioural core of the Writing-Coach Obsidian plugin
(sensor metrics pipeline, trigger engine, conversation session glue) as
executable Lean definitions, translated function by function from the
TypeScript source, and proves or refutes the specification claims about it.

Numbers are modelled as `ℚ` (the source uses JS numbers; all constants
involved are small decimal literals, so exact rationals are a faithful
model), strings as Lean `String`/`List Char`, and stateful classes as
explicit state records with pure step functions.
-/

/-- JS `\s` whitespace characters (the subset relevant to the texts the
plugin processes: ASCII whitespace plus NBSP and BOM). -/
def isJsWhitespace (c : Char) : Bool :=
  c = ' ' || c = '\t' || c = '\n' || c = '\r' || c = '\x0b' || c = '\x0c' ||
  c = ' ' || c = '﻿'

/-- CJK unified ideographs, the `[一-鿿]` class used by the source. -/
def isChineseChar (c : Char) : Bool :=
  0x4e00 ≤ c.toNat && c.toNat ≤ 0x9fff

/-- `Math.round` of JS: `⌊x + 1/2⌋` (ties round up). -/
def jsRound (q : ℚ) : ℤ := ⌊q + 1/2⌋

theorem dropWhile_length_le (p : α → Bool) (l : List α) :
    (l.dropWhile p).length ≤ l.length := by
  induction l with
  | nil => simp
  | cons c rest ih =>
    by_cases h : p c
    · simp only [List.dropWhile_cons, h, if_true, List.length_cons]; omega
    · simp [List.dropWhile_cons, h]

/-- Maximal runs of characters not satisfying `p`; this is the shallow
embedding of JS `str.split(/P+/).filter(w => w.length > 0)` where `P`
matches exactly the characters with `p = true`. -/
def splitRuns (p : Char → Bool) : List Char → List (List Char)
  | [] => []
  | c :: rest =>
    if h : p c then splitRuns p rest
    else
      (c :: rest).takeWhile (fun d => !p d) ::
        splitRuns p ((c :: rest).dropWhile (fun d => !p d))
termination_by l => l.length
decreasing_by
  · simp only [List.length_cons]; omega
  · simp only [List.dropWhile_cons, h, Bool.not_false, if_true]
    have := dropWhile_length_le (fun d => !p d) rest
    simp only [List.length_cons]; omega

/-- JS `Array.prototype.slice(-n)`: the last `n` elements (whole list when
shorter). -/
def jsSliceLast (n : Nat) (l : List α) : List α := l.drop (l.length - n)

/-- JS `String.prototype.endsWith`, modelled on character lists: the last
`|suffix|` characters equal the suffix. -/
def strEndsWith (w suffix : String) : Bool :=
  w.toList.drop (w.toList.length - suffix.toList.length) == suffix.toList

namespace SensorV1

/-- Adjective suffix list of `sensor.ts` (`ADJECTIVE_ENDINGS`). -/
def ADJECTIVE_ENDINGS : List String :=
  ["ful", "less", "ous", "ive", "al", "ic", "able", "ible", "ish", "ly", "ary", "ory"]

/-- `COMMON_ADJECTIVES` of `sensor.ts`. -/
def COMMON_ADJECTIVES : List String :=
  ["good", "bad", "big", "small", "large", "little", "old", "young", "new",
   "long", "short", "high", "low", "great", "beautiful", "dark", "light",
   "hot", "cold", "warm", "cool", "fast", "slow", "hard", "soft", "loud",
   "quiet", "happy", "sad", "angry", "afraid", "brave", "calm", "clear",
   "deep", "dry", "wet", "empty", "full", "heavy", "thick", "thin", "wide",
   "narrow", "rough", "smooth", "sharp", "sweet", "sour", "bitter", "fresh",
   "strange", "familiar", "certain", "possible", "real", "true", "false"]

/-- `ABSTRACT_NOUNS` of `sensor.ts`. -/
def ABSTRACT_NOUNS : List String :=
  ["love", "hate", "fear", "anxiety", "hope", "despair", "joy", "sorrow",
   "anger", "peace", "war", "truth", "lie", "beauty", "ugliness", "justice",
   "injustice", "freedom", "slavery", "power", "weakness", "strength",
   "knowledge", "ignorance", "wisdom", "folly", "courage", "cowardice",
   "faith", "doubt", "belief", "disbelief", "trust", "distrust", "honor",
   "shame", "pride", "humility", "guilt", "innocence", "grief", "loss",
   "happiness", "sadness", "loneliness", "friendship", "enmity", "loyalty",
   "betrayal", "identity", "self", "soul", "spirit", "mind", "heart",
   "memory", "dream", "reality", "fantasy", "imagination", "thought",
   "feeling", "emotion", "sensation", "perception", "consciousness",
   "meaning", "purpose", "reason", "logic", "intuition", "instinct",
   "desire", "need", "want", "wish", "ambition", "aspiration", "goal",
   "success", "failure", "achievement", "disappointment", "satisfaction",
   "frustration", "contentment", "discontent", "pleasure", "pain",
   "suffering", "bliss", "agony", "ecstasy", "melancholy", "nostalgia",
   "regret", "remorse", "forgiveness", "resentment", "gratitude", "envy",
   "jealousy", "compassion", "empathy", "sympathy", "apathy", "indifference",
   "relationship", "connection", "bond", "attachment", "separation"]

/-- `COMMON_VERBS` of `sensor.ts`. -/
def COMMON_VERBS : List String :=
  ["be", "is", "am", "are", "was", "were", "been", "being",
   "have", "has", "had", "having", "do", "does", "did", "doing",
   "say", "said", "go", "went", "gone", "get", "got", "make", "made",
   "know", "knew", "think", "thought", "take", "took", "see", "saw",
   "come", "came", "want", "wanted", "look", "looked", "use", "used",
   "find", "found", "give", "gave", "tell", "told", "work", "worked",
   "call", "called", "try", "tried", "ask", "asked", "need", "needed",
   "feel", "felt", "become", "became", "leave", "left", "put", "mean",
   "keep", "kept", "let", "begin", "began", "seem", "seemed", "help",
   "show", "showed", "hear", "heard", "play", "played", "run", "ran",
   "move", "moved", "live", "lived", "believe", "believed", "hold", "held",
   "bring", "brought", "happen", "happened", "write", "wrote", "written",
   "sit", "sat", "stand", "stood", "lose", "lost", "pay", "paid",
   "meet", "met", "include", "included", "continue", "continued",
   "set", "learn", "learned", "change", "changed", "lead", "led",
   "understand", "understood", "watch", "watched", "follow", "followed",
   "stop", "stopped", "create", "created", "speak", "spoke", "spoken",
   "read", "allow", "allowed", "add", "added", "spend", "spent",
   "grow", "grew", "grown", "open", "opened", "walk", "walked",
   "win", "won", "offer", "offered", "remember", "remembered",
   "consider", "considered", "appear", "appeared", "buy", "bought",
   "wait", "waited", "serve", "served", "die", "died", "send", "sent",
   "expect", "expected", "build", "built", "stay", "stayed", "fall", "fell"]

/-- `isAdjective` of `sensor.ts`: common-adjective lookup, else suffix test. -/
def isAdjective (word : String) : Bool :=
  COMMON_ADJECTIVES.contains word ||
    ADJECTIVE_ENDINGS.any (fun ending => strEndsWith word ending)

/-- `isVerb` of `sensor.ts`: common-verb lookup, else `ing`/`ed` suffix. -/
def isVerb (word : String) : Bool :=
  COMMON_VERBS.contains word || strEndsWith word "ing" || strEndsWith word "ed"

/-- `countWords` of `sensor.ts` (lines 370–387): CJK characters count 0.5
each, whitespace-delimited remaining tokens count 1 each, and the combined
value goes through `Math.round`.  The guard mirrors
`!text || text.trim().length === 0`. -/
def countWords (text : String) : ℚ :=
  let chars := text.toList
  if chars.all isJsWhitespace then 0
  else
    let chineseChars := chars.filter isChineseChar
    let englishOnly := chars.map (fun c => if isChineseChar c then ' ' else c)
    let englishWords := splitRuns isJsWhitespace englishOnly
    ((jsRound ((chineseChars.length : ℚ) * (1/2) + englishWords.length) : ℤ) : ℚ)

/-- `calculateTrend` of `sensor.ts` (lines 303–314): fewer than 3 readings
is `"stable"`; otherwise split the last 5 readings and compare the mean of
the first two with the mean of the last two against a ±5 step. -/
def calculateTrend (values : List ℚ) : String :=
  if values.length < 3 then "stable"
  else
    let recent := jsSliceLast 5 values
    let first := (recent.take 2).sum / 2
    let last := (jsSliceLast 2 recent).sum / 2
    let diff := last - first
    if diff > 5 then "increasing"
    else if diff < -5 then "decreasing"
    else "stable"

end SensorV1

/-- Mean of a list of rationals, following the specification's words
("the average of the first 2 of them and the average of the last 2"). -/
def listAverage (l : List ℚ) : ℚ := l.sum / l.length

/-- Trend classification as worded by the specification for claim C7:
stable below 3 readings; over the last at-most-5 readings, compare the
average of the first two against the average of the last two. -/
def trendSpec (values : List ℚ) : String :=
  if values.length < 3 then "stable"
  else
    let window := jsSliceLast 5 values
    let older := listAverage (window.take 2)
    let newer := listAverage (jsSliceLast 2 window)
    if newer - older > 5 then "increasing"
    else if newer - older < -5 then "decreasing"
    else "stable"

theorem jsSliceLast_length (n : Nat) (l : List α) :
    (jsSliceLast n l).length = l.length - (l.length - n) := by
  simp [jsSliceLast]

/-- C7: `calculateTrend` agrees everywhere with the trend computation as
worded in the specification: `"stable"` below three readings, and for three
or more readings the comparison of the averages of the first two and last
two of the trailing (at most) five readings against a strict ±5 step. -/
theorem calculateTrend_eq_trendSpec (values : List ℚ) :
    SensorV1.calculateTrend values = trendSpec values := by
  unfold SensorV1.calculateTrend trendSpec
  by_cases h : values.length < 3
  · simp [h]
  · simp only [h, if_false]
    have hlen : (jsSliceLast 5 values).length = values.length - (values.length - 5) := by
      simp [jsSliceLast]
    have hlen3 : 3 ≤ values.length := by omega
    have hwin : 2 ≤ (jsSliceLast 5 values).length := by omega
    have htake : ((jsSliceLast 5 values).take 2).length = 2 := by
      simp [List.length_take]; omega
    have hlast : (jsSliceLast 2 (jsSliceLast 5 values)).length = 2 := by
      rw [jsSliceLast_length]; omega
    simp only [listAverage, htake, hlast]
    norm_num

theorem splitRuns_cons_pos (p : Char → Bool) (c : Char) (rest : List Char)
    (h : p c = true) : splitRuns p (c :: rest) = splitRuns p rest := by
  rw [splitRuns]; simp [h]

theorem splitRuns_cons_neg (p : Char → Bool) (c : Char) (rest : List Char)
    (h : p c = false) :
    splitRuns p (c :: rest) =
      (c :: rest).takeWhile (fun d => !p d) ::
        splitRuns p ((c :: rest).dropWhile (fun d => !p d)) := by
  rw [splitRuns]; simp [h]

theorem splitRuns_nil (p : Char → Bool) : splitRuns p [] = [] := by
  rw [splitRuns]

theorem splitRuns_all_pos (p : Char → Bool) (l : List Char)
    (h : ∀ c ∈ l, p c = true) : splitRuns p l = [] := by
  induction l with
  | nil => rw [splitRuns]
  | cons c rest ih =>
    rw [splitRuns_cons_pos p c rest (h c (List.mem_cons_self c rest))]
    exact ih (fun d hd => h d (List.mem_cons_of_mem c hd))

/-- Number of word tokens as worded by claim C8: whitespace-delimited
tokens of non-logographic characters (a CJK character belongs to no
token). -/
def specTokenCount (text : String) : ℕ :=
  (splitRuns (fun c => isJsWhitespace c || isChineseChar c) text.toList).length

/-- The word-count value as worded by claim C8: one per whitespace-delimited
non-logographic token plus 0.5 per CJK character, combined additively as an
exact (unrounded) value. -/
def countWordsExact (text : String) : ℚ :=
  (specTokenCount text : ℚ) +
    ((text.toList.filter isChineseChar).length : ℚ) * (1/2)

theorem dropWhile_mask (l : List Char) :
    (l.map (fun c => if isChineseChar c then ' ' else c)).dropWhile
        (fun d => !isJsWhitespace d) =
    (l.dropWhile (fun d => !(isJsWhitespace d || isChineseChar d))).map
      (fun c => if isChineseChar c then ' ' else c) := by
  induction l with
  | nil => simp
  | cons c rest ih =>
    by_cases hc : isChineseChar c = true
    · have hsp : isJsWhitespace ' ' = true := by decide
      simp [List.dropWhile_cons, hc, hsp]
    · by_cases hw : isJsWhitespace c = true
      · simp [List.dropWhile_cons, hc, hw]
      · simp only [Bool.not_eq_true] at hc hw
        simp [List.dropWhile_cons, hc, hw, ih]

theorem splitRuns_mask_length :
    ∀ n (l : List Char), l.length ≤ n →
    (splitRuns isJsWhitespace
      (l.map (fun c => if isChineseChar c then ' ' else c))).length =
    (splitRuns (fun c => isJsWhitespace c || isChineseChar c) l).length := by
  intro n
  induction n with
  | zero =>
    intro l hl
    have : l = [] := List.length_eq_zero.mp (Nat.le_zero.mp hl)
    subst this; simp [splitRuns_nil]
  | succ n ih =>
    intro l hl
    match l with
    | [] => simp [splitRuns_nil]
    | c :: rest =>
      by_cases hc : isChineseChar c = true
      · have : (fun c => if isChineseChar c then ' ' else c) c = ' ' := by simp [hc]
        simp only [List.map_cons, this]
        rw [splitRuns_cons_pos isJsWhitespace ' ' _ (by decide),
            splitRuns_cons_pos _ c rest (by simp [hc])]
        exact ih rest (by simpa using Nat.le_of_succ_le_succ hl)
      · by_cases hw : isJsWhitespace c = true
        · have hmask : (fun c => if isChineseChar c then ' ' else c) c = c := by simp [hc]
          simp only [List.map_cons, hmask]
          rw [splitRuns_cons_pos isJsWhitespace c _ hw,
              splitRuns_cons_pos _ c rest (by simp [hw])]
          exact ih rest (by simpa using Nat.le_of_succ_le_succ hl)
        · simp only [Bool.not_eq_true] at hc hw
          have hmask : (fun c => if isChineseChar c then ' ' else c) c = c := by simp [hc]
          simp only [List.map_cons, hmask]
          rw [splitRuns_cons_neg isJsWhitespace c _ hw,
              splitRuns_cons_neg _ c rest (by simp [hw, hc])]
          simp only [List.length_cons, Nat.succ.injEq]
          have hdrop := dropWhile_mask (c :: rest)
          simp only [List.map_cons, hmask] at hdrop
          rw [hdrop]
          apply ih
          have h1 : ((c :: rest).dropWhile
              (fun d => !(isJsWhitespace d || isChineseChar d))) =
              rest.dropWhile (fun d => !(isJsWhitespace d || isChineseChar d)) := by
            simp [List.dropWhile_cons, hw, hc]
          rw [h1]
          have h2 : rest.length ≤ n := by
            simp only [List.length_cons] at hl; omega
          exact Nat.le_trans (dropWhile_length_le _ rest) h2

theorem isJsWhitespace_not_chinese (c : Char) (h : isJsWhitespace c = true) :
    isChineseChar c = false := by
  simp only [isJsWhitespace, Bool.or_eq_true, decide_eq_true_eq] at h
  rcases h with (((((((h | h) | h) | h) | h) | h) | h) | h) <;> subst h <;> decide

theorem jsRound_abs_le (q : ℚ) : |((jsRound q : ℤ) : ℚ) - q| ≤ 1/2 := by
  have h1 : ((jsRound q : ℤ) : ℚ) ≤ q + 1/2 := Int.floor_le (q + 1/2)
  have h2 : q + 1/2 < ((jsRound q : ℤ) : ℚ) + 1 := Int.lt_floor_add_one (q + 1/2)
  rw [abs_le]
  constructor <;> linarith

/-- C8 (counterexample): for the single CJK character `中` the source's
`countWords` returns the rounded value 1, while the exact additive
combination demanded by the claim is 1/2, so the claim's exact equality
fails. -/
theorem countWords_exactness_counterexample :
    SensorV1.countWords "中" = 1 ∧ countWordsExact "中" = 1/2 ∧
      SensorV1.countWords "中" ≠ countWordsExact "中" := by
  refine ⟨?_, ?_, ?_⟩
  · simp +decide [SensorV1.countWords, splitRuns, jsRound]
    norm_num
  · simp +decide [countWordsExact, specTokenCount, splitRuns]
  · simp +decide [SensorV1.countWords, countWordsExact, specTokenCount,
      splitRuns, jsRound]
    norm_num

/-- C8 (amended): `countWords` equals the additive combination of one per
whitespace-delimited non-logographic token plus 0.5 per CJK character,
rounded to the nearest integer (ties up); in particular it is always
within 1/2 of the claim's exact additive value. -/
theorem countWords_eq_round_exact (text : String) :
    SensorV1.countWords text = ((jsRound (countWordsExact text) : ℤ) : ℚ) ∧
    |SensorV1.countWords text - countWordsExact text| ≤ 1/2 := by
  have key : SensorV1.countWords text = ((jsRound (countWordsExact text) : ℤ) : ℚ) := by
    unfold SensorV1.countWords
    by_cases hall : text.toList.all isJsWhitespace
    · have hws := List.all_eq_true.mp hall
      have htok : specTokenCount text = 0 := by
        unfold specTokenCount
        rw [splitRuns_all_pos]
        · rfl
        · intro c hc
          simp [hws c hc]
      have hfil : text.toList.filter isChineseChar = [] := by
        rw [List.filter_eq_nil]
        intro c hc
        simp [isJsWhitespace_not_chinese c (hws c hc)]
      have hexact : countWordsExact text = 0 := by
        unfold countWordsExact
        rw [htok, hfil]
        norm_num
      rw [hexact]
      simp only [hall, if_true]
      norm_num [jsRound]
    · simp only [hall, if_false]
      have hmask := splitRuns_mask_length text.toList.length text.toList le_rfl
      unfold countWordsExact
      rw [hmask]
      congr 1
      unfold jsRound specTokenCount
      congr 1
      ring_nf
      simp
  exact ⟨key, by rw [key]; exact jsRound_abs_le _⟩

/-- A JS runtime value as it can reach `evaluateCondition`: the metric
snapshot holds numbers, strings (trend, pause location) and one numeric
array; absent keys yield `undefined`. -/
inductive JSValue where
  | num (q : ℚ)
  | str (s : String)
  | bool (b : Bool)
  | arr (l : List ℚ)
  | undefined
deriving DecidableEq

/-- JS strict equality `===` restricted to the values above.  Arrays
compare by reference; in `evaluateCondition` an array is only ever
compared against a fresh string or boolean, so `false` is faithful. -/
def jsStrictEq : JSValue → JSValue → Bool
  | .num a, .num b => a == b
  | .str a, .str b => a == b
  | .bool a, .bool b => a == b
  | .undefined, .undefined => true
  | _, _ => false

/-- Value of a decimal digit list, most significant first. -/
def digitsVal (ds : List Char) : ℕ :=
  ds.foldl (fun acc d => acc * 10 + (d.toNat - '0'.toNat)) 0

/-- JS `parseFloat` on a string: skip leading whitespace, optional sign,
`digits[.digits]` or `.digits`, optional exponent; `none` models `NaN`.
(Non-finite inputs such as `Infinity` are outside the rational model.) -/
def jsParseFloat (s : String) : Option ℚ :=
  let l := s.toList.dropWhile isJsWhitespace
  let signAndRest : ℚ × List Char :=
    match l with
    | '-' :: r => (-1, r)
    | '+' :: r => (1, r)
    | _ => (1, l)
  let sign := signAndRest.1
  let l1 := signAndRest.2
  let intDigits := l1.takeWhile Char.isDigit
  let rest1 := l1.dropWhile Char.isDigit
  let fracAndRest : List Char × List Char :=
    match rest1 with
    | '.' :: r => (r.takeWhile Char.isDigit, r.dropWhile Char.isDigit)
    | _ => ([], rest1)
  let fracDigits := fracAndRest.1
  let rest2 := fracAndRest.2
  if intDigits.isEmpty && fracDigits.isEmpty then none
  else
    let mant : ℚ :=
      (digitsVal intDigits : ℚ) + (digitsVal fracDigits : ℚ) / (10 ^ fracDigits.length)
    let expVal : ℤ :=
      match rest2 with
      | e :: r =>
        if e = 'e' || e = 'E' then
          let esignAndRest : ℤ × List Char :=
            match r with
            | '-' :: rr => (-1, rr)
            | '+' :: rr => (1, rr)
            | _ => (1, r)
          let eds := esignAndRest.2.takeWhile Char.isDigit
          if eds.isEmpty then 0 else esignAndRest.1 * digitsVal eds
        else 0
      | [] => 0
    some (sign * mant * (10 : ℚ) ^ expVal)

/-- `typeof value === 'number' ? value : parseFloat(value)` followed by the
`isNaN` guard of `evaluateCondition`; `none` models `NaN`.  `parseFloat` of
a boolean or `undefined` is `NaN`; of an array it parses the string form of
the first element. -/
def jsToNumber : JSValue → Option ℚ
  | .num q => some q
  | .str s => jsParseFloat s
  | .bool _ => none
  | .undefined => none
  | .arr [] => none
  | .arr (q :: _) => some q

/-- The five relational operators of the condition regex `([><]=?|=)`. -/
inductive RelOp where
  | gt | lt | ge | le | eq
deriving DecidableEq

/-- The numeral part `-?\d+\.?\d*` of the condition regex, matched at the
start of `l`; its `parseFloat` value. -/
def matchNumeral (l : List Char) : Option ℚ :=
  let negAndRest : Bool × List Char :=
    match l with
    | '-' :: r => (true, r)
    | _ => (false, l)
  let ds := negAndRest.2.takeWhile Char.isDigit
  if ds.isEmpty then none
  else
    let r1 := negAndRest.2.dropWhile Char.isDigit
    let fds :=
      match r1 with
      | '.' :: r2 => r2.takeWhile Char.isDigit
      | _ => ([]:List Char)
    let v : ℚ := (digitsVal ds : ℚ) + (digitsVal fds : ℚ) / (10 ^ fds.length)
    some (if negAndRest.1 then -v else v)

/-- `\s*` then the numeral, tagged with operator `op`. -/
def matchSpacedNumeral (op : RelOp) (l : List Char) : Option (RelOp × ℚ) :=
  (matchNumeral (l.dropWhile isJsWhitespace)).map (fun q => (op, q))

/-- One attempt of the regex `([><]=?|=)\s*(-?\d+\.?\d*)` anchored at the
head of `l`, with the backtracking of the greedy `=?`. -/
def matchCondAt (l : List Char) : Option (RelOp × ℚ) :=
  match l with
  | '>' :: '=' :: r => matchSpacedNumeral .ge r <|> matchSpacedNumeral .gt ('=' :: r)
  | '>' :: r => matchSpacedNumeral .gt r
  | '<' :: '=' :: r => matchSpacedNumeral .le r <|> matchSpacedNumeral .lt ('=' :: r)
  | '<' :: r => matchSpacedNumeral .lt r
  | '=' :: r => matchSpacedNumeral .eq r
  | _ => none

/-- `condition.match(/([><]=?|=)\s*(-?\d+\.?\d*)/)`: an unanchored search,
trying each position left to right. -/
def findNumericCond : List Char → Option (RelOp × ℚ)
  | [] => none
  | c :: rest => matchCondAt (c :: rest) <|> findNumericCond rest

/-- `evaluateCondition` of `trigger-engine.ts` (lines 237–273): numeric
comparison when the regex finds a match anywhere in the string (coercing
non-numbers with `parseFloat`, `NaN` failing closed), otherwise strict
equality against trend keywords, pause-location keywords and boolean
literals, otherwise `false`.  Totality of this definition is the
never-throws part of the source contract. -/
def evaluateCondition (value : JSValue) (condition : String) : Bool :=
  match findNumericCond condition.toList with
  | some (op, threshold) =>
    match jsToNumber value with
    | none => false
    | some numValue =>
      match op with
      | .gt => numValue > threshold
      | .lt => numValue < threshold
      | .ge => numValue ≥ threshold
      | .le => numValue ≤ threshold
      | .eq => numValue == threshold
  | none =>
    if condition = "increasing" || condition = "decreasing" || condition = "stable" then
      jsStrictEq value (.str condition)
    else if condition = "start" || condition = "mid-sentence" ||
        condition = "end-sentence" || condition = "end-paragraph" then
      jsStrictEq value (.str condition)
    else if condition = "true" then jsStrictEq value (.bool true)
    else if condition = "false" then jsStrictEq value (.bool false)
    else false

/-- The whole-string numeral shape `-?digits[.digits]` of claim C6's
grammar reading. -/
def isNumeralOnly (l : List Char) : Bool :=
  let l1 := match l with
    | '-' :: r => r
    | _ => l
  let ds := l1.takeWhile Char.isDigit
  let r1 := l1.dropWhile Char.isDigit
  !ds.isEmpty &&
    (r1.isEmpty ||
      (match r1 with
       | '.' :: r2 => r2.all Char.isDigit
       | _ => false))

/-- Condition grammar as worded by claim C6: the entire string is a
relational numeric operator followed by a number, or one of the trend
keywords, pause-location keywords, or boolean literals. -/
def matchesSpecGrammar (condition : String) : Bool :=
  (let opRest : Option (List Char) :=
    match condition.toList with
    | '>' :: '=' :: r => some r
    | '<' :: '=' :: r => some r
    | '>' :: r => some r
    | '<' :: r => some r
    | '=' :: r => some r
    | _ => none
   match opRest with
   | some r => isNumeralOnly (r.dropWhile isJsWhitespace)
   | none => false) ||
  ["increasing", "decreasing", "stable", "start", "mid-sentence",
   "end-sentence", "end-paragraph", "true", "false"].contains condition

/-- C6 (counterexample): the condition string `"wpm > 40"` does not match
the supported grammar of the claim (it is not an operator followed by a
number, nor a keyword), yet `evaluateCondition` applied to the numeric
value 50 returns `true`, not `false`: the source regex searches for the
operator-number pattern anywhere in the string. -/
theorem evaluateCondition_grammar_counterexample :
    matchesSpecGrammar "wpm > 40" = false ∧
    evaluateCondition (JSValue.num 50) "wpm > 40" = true := by
  constructor
  · decide
  · simp +decide [evaluateCondition, findNumericCond, matchCondAt,
      matchSpacedNumeral, matchNumeral, digitsVal, jsToNumber, isJsWhitespace]

/-- The keyword literals that `evaluateCondition` compares against when no
numeric pattern occurs. -/
def conditionKeywords : List String :=
  ["increasing", "decreasing", "stable", "start", "mid-sentence",
   "end-sentence", "end-paragraph", "true", "false"]

/-- C6 (amended): `evaluateCondition` fails closed — it returns `false`
for every value whenever the condition string contains no substring
matching the operator-number pattern and is none of the trend,
pause-location or boolean keywords; and whenever the numeric pattern does
occur but the value does not coerce to a number (`parseFloat` yields
`NaN`), it also returns `false`.  The evaluator is a total function, so it
never throws. -/
theorem evaluateCondition_fail_closed (value : JSValue) (condition : String) :
    (findNumericCond condition.toList = none →
      conditionKeywords.contains condition = false →
      evaluateCondition value condition = false) ∧
    (∀ op threshold,
      findNumericCond condition.toList = some (op, threshold) →
      jsToNumber value = none →
      evaluateCondition value condition = false) := by
  constructor
  · intro hnone hkw
    unfold evaluateCondition
    rw [hnone]
    simp only [conditionKeywords, List.contains_cons, Bool.or_eq_false_iff,
      List.contains_nil, beq_eq_false_iff_ne, ne_eq] at hkw
    obtain ⟨h1, h2, h3, h4, h5, h6, h7, h8, h9, -⟩ := hkw
    simp [h1, h2, h3, h4, h5, h6, h7, h8, h9]
  · intro op threshold hsome hnan
    unfold evaluateCondition
    rw [hsome, hnan]

/-- C6 witness: concrete instances of both fail-closed conjuncts. -/
theorem evaluateCondition_fail_closed_witness :
    evaluateCondition JSValue.undefined "whenever" = false ∧
    evaluateCondition (JSValue.bool true) "> 40" = false :=
  ⟨(evaluateCondition_fail_closed JSValue.undefined "whenever").1
      (by decide) (by decide),
   (evaluateCondition_fail_closed (JSValue.bool true) "> 40").2
      RelOp.gt 40
      (by simp +decide [findNumericCond, matchCondAt, matchSpacedNumeral,
        matchNumeral, digitsVal, isJsWhitespace])
      (by decide)⟩

/-- The `WritingMetrics` snapshot of `types.ts`. -/
structure WritingMetrics where
  wpm : ℚ
  totalWords : ℚ
  sessionDuration : ℚ
  adjectiveRatio : ℚ
  verbRatio : ℚ
  abstractNounRatio : ℚ
  averageSentenceLength : ℚ
  pauseDuration : ℚ
  pauseLocation : String
  deletionRatio : ℚ
  wpmTrend : String
  recentWPM : List ℚ
  currentParagraphLength : ℚ
  paragraphsSinceLastCoaching : ℚ
deriving DecidableEq

/-- The dynamic `metrics[key as keyof WritingMetrics]` lookup: each field by
its TS name, anything else `undefined`. -/
def metricValue (m : WritingMetrics) (key : String) : JSValue :=
  if key = "wpm" then .num m.wpm
  else if key = "totalWords" then .num m.totalWords
  else if key = "sessionDuration" then .num m.sessionDuration
  else if key = "adjectiveRatio" then .num m.adjectiveRatio
  else if key = "verbRatio" then .num m.verbRatio
  else if key = "abstractNounRatio" then .num m.abstractNounRatio
  else if key = "averageSentenceLength" then .num m.averageSentenceLength
  else if key = "pauseDuration" then .num m.pauseDuration
  else if key = "pauseLocation" then .str m.pauseLocation
  else if key = "deletionRatio" then .num m.deletionRatio
  else if key = "wpmTrend" then .str m.wpmTrend
  else if key = "recentWPM" then .arr m.recentWPM
  else if key = "currentParagraphLength" then .num m.currentParagraphLength
  else if key = "paragraphsSinceLastCoaching" then .num m.paragraphsSinceLastCoaching
  else .undefined

/-- A `TriggerRule` of `types.ts`; `conditions` keeps the JSON object's
entry order, as `Object.entries` does. -/
structure TriggerRule where
  name : String
  description : String
  conditions : List (String × String)
  appliesTo : List String
  timingDelay : ℚ
  priority : String
  coachingStyle : String
  enableChat : Bool
  systemPrompt : String
deriving DecidableEq

/-- `globalSettings.conversationRules` of `types.ts`. -/
structure ConversationRules where
  autoCloseOnWriting : Bool
  maxConversationLength : ℚ
deriving DecidableEq

/-- `globalSettings` of `types.ts`; `priorityOverrideHigh` models the
optional `priorityOverride?.high`. -/
structure GlobalSettings where
  minimumIntervalBetweenTriggers : ℚ
  priorityOverrideHigh : Option ℚ
  conversationRules : Option ConversationRules
deriving DecidableEq

/-- The trigger-rule catalog (`TriggerRules` of `types.ts`); rule map as an
ordered association list, matching `Object.entries` iteration order. -/
structure TriggerRules where
  triggers : List (String × TriggerRule)
  globalSettings : GlobalSettings
deriving DecidableEq

structure WritingContext where
  writingType : String
  recentContent : String
  currentFile : String
deriving DecidableEq

structure TriggerEvent where
  name : String
  timestamp : ℚ
  metrics : WritingMetrics
  writingType : String
deriving DecidableEq

structure TriggerResult where
  triggerName : String
  rule : TriggerRule
  metrics : WritingMetrics
  context : WritingContext
deriving DecidableEq

/-- Mutable fields of the `TriggerEngine` class. -/
structure EngineState where
  rules : TriggerRules
  lastTriggerTime : ℚ
  triggerHistory : List TriggerEvent
  isPaused : Bool
  devMode : Bool
deriving DecidableEq

/-- The `TriggerEngine` constructor: rules stored, all other fields at
their class initialisers. -/
def mkEngine (rules : TriggerRules) : EngineState :=
  { rules := rules, lastTriggerTime := 0, triggerHistory := [],
    isPaused := false, devMode := false }

/-- JS `x || d` on an optional number (`0` is falsy and also falls back). -/
def jsOrDefault (o : Option ℚ) (d : ℚ) : ℚ :=
  match o with
  | none => d
  | some v => if v = 0 then d else v

/-- `minInterval` of `checkTriggers` (ms). -/
def minIntervalMs (s : EngineState) : ℚ :=
  if s.devMode then 60000
  else s.rules.globalSettings.minimumIntervalBetweenTriggers * 1000

/-- `highPriorityInterval` of `checkTriggers` (ms). -/
def highIntervalMs (s : EngineState) : ℚ :=
  if s.devMode then 30000
  else jsOrDefault s.rules.globalSettings.priorityOverrideHigh 180 * 1000

/-- `appliesToType` of `trigger-engine.ts`. -/
def appliesToType (rule : TriggerRule) (writingType : String) : Bool :=
  rule.appliesTo.contains "all" || rule.appliesTo.contains writingType

/-- `evaluateConditions` of `trigger-engine.ts`: every condition entry must
hold; the `duration` key is aliased to `sessionDuration`. -/
def evaluateConditions (conditions : List (String × String))
    (metrics : WritingMetrics) : Bool :=
  conditions.all fun kc =>
    evaluateCondition
      (metricValue metrics (if kc.1 = "duration" then "sessionDuration" else kc.1))
      kc.2

/-- The rule loop of `checkTriggers` (lines 124–179): first rule that
applies to the writing type, whose conditions hold and whose cooldown has
elapsed; rate-limited rules are skipped, not deferred. -/
def checkLoop (metrics : WritingMetrics) (writingType : String)
    (now lastTriggerTime minMs highMs : ℚ) :
    List (String × TriggerRule) → Option (String × TriggerRule)
  | [] => none
  | (triggerName, rule) :: rest =>
    if !appliesToType rule writingType then
      checkLoop metrics writingType now lastTriggerTime minMs highMs rest
    else if evaluateConditions rule.conditions metrics then
      let requiredInterval := if rule.priority = "high" then highMs else minMs
      if now - lastTriggerTime < requiredInterval then
        checkLoop metrics writingType now lastTriggerTime minMs highMs rest
      else some (triggerName, rule)
    else checkLoop metrics writingType now lastTriggerTime minMs highMs rest

/-- `checkTriggers` of `trigger-engine.ts`: the full tick.  The returned
state is the one in place when `onTrigger` is notified — the source sets
`lastTriggerTime` and records the `TriggerEvent` before the callback runs
and returns immediately after it. -/
def checkTriggers (s : EngineState) (metrics : WritingMetrics)
    (writingType : String) (context : WritingContext) (now : ℚ) :
    EngineState × Option TriggerResult :=
  if s.isPaused then (s, none)
  else
    match checkLoop metrics writingType now s.lastTriggerTime
        (minIntervalMs s) (highIntervalMs s) s.rules.triggers with
    | none => (s, none)
    | some (triggerName, rule) =>
      let event : TriggerEvent :=
        { name := triggerName, timestamp := now, metrics := metrics,
          writingType := writingType }
      let pushed := s.triggerHistory ++ [event]
      let capped := if pushed.length > 100 then jsSliceLast 100 pushed else pushed
      ({ s with lastTriggerTime := now, triggerHistory := capped },
        some { triggerName := triggerName, rule := rule, metrics := metrics,
               context := context })

/-- `this.rules.triggers[triggerName]` object lookup. -/
def lookupRule (triggers : List (String × TriggerRule)) (name : String) :
    Option TriggerRule :=
  (triggers.find? fun p => p.1 = name).map Prod.snd

/-- `forceTrigger` of `trigger-engine.ts` (lines 187–209): build and emit a
result for an existing rule; no state field is read besides the rule map
and none is written. -/
def forceTrigger (s : EngineState) (triggerName : String)
    (metrics : WritingMetrics) (context : WritingContext) :
    EngineState × Option TriggerResult :=
  match lookupRule s.rules.triggers triggerName with
  | none => (s, none)
  | some rule =>
    (s, some { triggerName := triggerName, rule := rule, metrics := metrics,
               context := context })

/-- One scheduler tick's input: the `Date.now()` reading and the snapshot
arguments the interval callback passes to `checkTriggers`. -/
structure TickInput where
  now : ℚ
  metrics : WritingMetrics
  writingType : String
  context : WritingContext
deriving DecidableEq

/-- A sequence of `checkTriggers` calls threading the engine state; the
trace records each tick's time and outcome. -/
def runTicks (s : EngineState) : List TickInput → List (ℚ × Option TriggerResult)
  | [] => []
  | t :: rest =>
    let out := checkTriggers s t.metrics t.writingType t.context t.now
    (t.now, out.2) :: runTicks out.1 rest

/-- Required cooldown for the rule of a given result in a given engine
state: the high-priority override for `priority: 'high'`, the global
minimum otherwise. -/
def requiredIntervalFor (s : EngineState) (r : TriggerResult) : ℚ :=
  if r.rule.priority = "high" then highIntervalMs s else minIntervalMs s

theorem checkLoop_fire_interval (metrics : WritingMetrics) (writingType : String)
    (now lastTriggerTime minMs highMs : ℚ) :
    ∀ (rules : List (String × TriggerRule)) (name : String) (rule : TriggerRule),
    checkLoop metrics writingType now lastTriggerTime minMs highMs rules
      = some (name, rule) →
    now - lastTriggerTime ≥ (if rule.priority = "high" then highMs else minMs) := by
  intro rules
  induction rules with
  | nil => intro name rule h; simp [checkLoop] at h
  | cons p rest ih =>
    intro name rule h
    obtain ⟨pname, prule⟩ := p
    unfold checkLoop at h
    by_cases happ : appliesToType prule writingType
    · simp only [happ, Bool.not_true, Bool.false_eq_true, if_false] at h
      by_cases hcond : evaluateConditions prule.conditions metrics
      · simp only [hcond, if_true] at h
        by_cases hrate : now - lastTriggerTime <
            (if prule.priority = "high" then highMs else minMs)
        · simp only [hrate, if_true] at h
          exact ih name rule h
        · simp only [hrate, if_false] at h
          obtain ⟨rfl, rfl⟩ := Prod.mk.injEq .. ▸ Option.some.injEq .. ▸ h
          exact le_of_not_lt hrate
      · simp only [hcond, Bool.false_eq_true, if_false] at h
        exact ih name rule h
    · simp only [happ, Bool.not_false, if_true] at h
      exact ih name rule h

theorem checkTriggers_fire (s : EngineState) (metrics : WritingMetrics)
    (writingType : String) (context : WritingContext) (now : ℚ)
    (s' : EngineState) (r : TriggerResult)
    (h : checkTriggers s metrics writingType context now = (s', some r)) :
    now - s.lastTriggerTime ≥ requiredIntervalFor s r ∧
    s'.lastTriggerTime = now ∧ s'.rules = s.rules ∧
    s'.devMode = s.devMode ∧ s'.isPaused = s.isPaused := by
  unfold checkTriggers at h
  by_cases hp : s.isPaused
  · rw [if_pos hp] at h
    exact absurd (congrArg Prod.snd h) (by simp)
  · rw [if_neg hp] at h
    cases hloop : checkLoop metrics writingType now s.lastTriggerTime
        (minIntervalMs s) (highIntervalMs s) s.rules.triggers with
    | none =>
      rw [hloop] at h
      exact absurd (congrArg Prod.snd h) (by simp)
    | some p =>
      obtain ⟨pname, prule⟩ := p
      rw [hloop] at h
      have hfst := congrArg Prod.fst h
      have hsnd := congrArg Prod.snd h
      simp only at hfst hsnd
      have hr : r = ⟨pname, prule, metrics, context⟩ :=
        (Option.some.inj hsnd).symm
      have hint := checkLoop_fire_interval metrics writingType now
        s.lastTriggerTime (minIntervalMs s) (highIntervalMs s)
        s.rules.triggers pname prule hloop
      refine ⟨?_, ?_, ?_, ?_, ?_⟩
      · unfold requiredIntervalFor
        rw [hr]
        exact hint
      · rw [← hfst]
      · rw [← hfst]
      · rw [← hfst]
      · rw [← hfst]

theorem checkTriggers_frame (s : EngineState) (metrics : WritingMetrics)
    (writingType : String) (context : WritingContext) (now : ℚ) :
    (checkTriggers s metrics writingType context now).1.rules = s.rules ∧
    (checkTriggers s metrics writingType context now).1.devMode = s.devMode ∧
    (checkTriggers s metrics writingType context now).1.isPaused = s.isPaused := by
  unfold checkTriggers
  by_cases hp : s.isPaused
  · rw [if_pos hp]
    exact ⟨rfl, rfl, rfl⟩
  · rw [if_neg hp]
    cases checkLoop metrics writingType now s.lastTriggerTime
        (minIntervalMs s) (highIntervalMs s) s.rules.triggers with
    | none => exact ⟨rfl, rfl, rfl⟩
    | some p =>
      obtain ⟨pname, prule⟩ := p
      exact ⟨rfl, rfl, rfl⟩

theorem intervals_of_frame {s s' : EngineState} (hr : s'.rules = s.rules)
    (hd : s'.devMode = s.devMode) :
    minIntervalMs s' = minIntervalMs s ∧ highIntervalMs s' = highIntervalMs s := by
  constructor
  · unfold minIntervalMs
    rw [hr, hd]
  · unfold highIntervalMs
    rw [hr, hd]

theorem checkTriggers_last_mono (s : EngineState) (metrics : WritingMetrics)
    (writingType : String) (context : WritingContext) (now : ℚ)
    (hmin : 0 ≤ minIntervalMs s) (hhigh : 0 ≤ highIntervalMs s) :
    s.lastTriggerTime ≤ (checkTriggers s metrics writingType context now).1.lastTriggerTime := by
  cases hout : checkTriggers s metrics writingType context now with
  | mk s' or =>
    cases or with
    | none =>
      unfold checkTriggers at hout
      by_cases hp : s.isPaused
      · simp only [hp, if_true, Prod.mk.injEq] at hout
        rw [← hout.1]
      · simp only [hp, Bool.false_eq_true, if_false] at hout
        cases hloop : checkLoop metrics writingType now s.lastTriggerTime
            (minIntervalMs s) (highIntervalMs s) s.rules.triggers with
        | none =>
          rw [hloop] at hout
          simp only [Prod.mk.injEq] at hout
          rw [← hout.1]
        | some p =>
          rw [hloop] at hout
          simp at hout
    | some r =>
      have hf := checkTriggers_fire s metrics writingType context now s' r hout
      have hreq : 0 ≤ requiredIntervalFor s r := by
        unfold requiredIntervalFor
        by_cases hpri : r.rule.priority = "high" <;> simp [hpri, hmin, hhigh]
      have := hf.1
      have h2 := hf.2.1
      simp only [hout] at *
      rw [h2]
      linarith

theorem runTicks_fire_ge :
    ∀ (ticks : List TickInput) (s : EngineState) (j : ℕ) (t₂ : ℚ)
      (r₂ : TriggerResult),
    0 ≤ minIntervalMs s → 0 ≤ highIntervalMs s →
    (runTicks s ticks)[j]? = some (t₂, some r₂) →
    t₂ - s.lastTriggerTime ≥ requiredIntervalFor s r₂ := by
  intro ticks
  induction ticks with
  | nil => intro s j t₂ r₂ _ _ h; simp [runTicks] at h
  | cons t rest ih =>
    intro s j t₂ r₂ hmin hhigh h
    rw [runTicks] at h
    match j with
    | 0 =>
      simp only [List.getElem?_cons_zero, Option.some.injEq, Prod.mk.injEq] at h
      obtain ⟨ht, hr⟩ := h
      cases hout : checkTriggers s t.metrics t.writingType t.context t.now with
      | mk s1 o1 =>
        rw [hout] at hr
        cases o1 with
        | none => simp at hr
        | some r1 =>
          have hr1 : r1 = r₂ := Option.some.inj hr
          rw [← ht, ← hr1]
          exact (checkTriggers_fire s t.metrics t.writingType t.context
            t.now s1 r1 hout).1
    | Nat.succ j' =>
      simp only [List.getElem?_cons_succ] at h
      set s1 := (checkTriggers s t.metrics t.writingType t.context t.now).1 with hs1
      have hframe := checkTriggers_frame s t.metrics t.writingType t.context t.now
      have hint := intervals_of_frame hframe.1 hframe.2.1
      have hmin1 : 0 ≤ minIntervalMs s1 := hint.1 ▸ hmin
      have hhigh1 : 0 ≤ highIntervalMs s1 := hint.2 ▸ hhigh
      have hih := ih s1 j' t₂ r₂ hmin1 hhigh1 h
      have hmono := checkTriggers_last_mono s t.metrics t.writingType t.context
        t.now hmin hhigh
      have hreq : requiredIntervalFor s1 r₂ = requiredIntervalFor s r₂ := by
        unfold requiredIntervalFor
        rw [hint.1, hint.2]
      rw [hreq] at hih
      have : s.lastTriggerTime ≤ s1.lastTriggerTime := hmono
      linarith

theorem runTicks_two_fires :
    ∀ (ticks : List TickInput) (s : EngineState) (i j : ℕ)
      (t₁ t₂ : ℚ) (r₁ r₂ : TriggerResult),
    0 ≤ minIntervalMs s → 0 ≤ highIntervalMs s → i < j →
    (runTicks s ticks)[i]? = some (t₁, some r₁) →
    (runTicks s ticks)[j]? = some (t₂, some r₂) →
    t₂ - t₁ ≥ requiredIntervalFor s r₂ := by
  intro ticks
  induction ticks with
  | nil => intro s i j t₁ t₂ r₁ r₂ _ _ _ h1 _; simp [runTicks] at h1
  | cons t rest ih =>
    intro s i j t₁ t₂ r₁ r₂ hmin hhigh hij h1 h2
    rw [runTicks] at h1 h2
    have hframe := checkTriggers_frame s t.metrics t.writingType t.context t.now
    have hint := intervals_of_frame hframe.1 hframe.2.1
    set s1 := (checkTriggers s t.metrics t.writingType t.context t.now).1 with hs1
    have hmin1 : 0 ≤ minIntervalMs s1 := hint.1 ▸ hmin
    have hhigh1 : 0 ≤ highIntervalMs s1 := hint.2 ▸ hhigh
    match i, j with
    | 0, Nat.succ j' =>
      simp only [List.getElem?_cons_zero, Option.some.injEq, Prod.mk.injEq] at h1
      simp only [List.getElem?_cons_succ] at h2
      obtain ⟨ht1, hr1⟩ := h1
      cases hout : checkTriggers s t.metrics t.writingType t.context t.now with
      | mk sA oA =>
        rw [hout] at hr1
        cases oA with
        | none => simp at hr1
        | some rA =>
          have hfire := checkTriggers_fire s t.metrics t.writingType t.context
            t.now sA rA hout
          have hge := runTicks_fire_ge rest s1 j' t₂ r₂ hmin1 hhigh1 h2
          have hreq : requiredIntervalFor s1 r₂ = requiredIntervalFor s r₂ := by
            unfold requiredIntervalFor
            rw [hint.1, hint.2]
          rw [hreq] at hge
          have hlast : s1.lastTriggerTime = t.now := by
            rw [hs1, hout]
            exact hfire.2.1
          rw [hlast] at hge
          rw [← ht1]
          exact hge
    | Nat.succ i', Nat.succ j' =>
      simp only [List.getElem?_cons_succ] at h1 h2
      have hij' : i' < j' := Nat.succ_lt_succ_iff.mp hij
      have := ih s1 i' j' t₁ t₂ r₁ r₂ hmin1 hhigh1 hij' h1 h2
      have hreq : requiredIntervalFor s1 r₂ = requiredIntervalFor s r₂ := by
        unfold requiredIntervalFor
        rw [hint.1, hint.2]
      rw [hreq] at this
      exact this

/-- C2: over any sequence of `checkTriggers` ticks from a fresh engine, if
a trigger fires at `t₁` and a later tick fires any trigger at `t₂`, then
`t₂ - t₁` is at least the global cooldown
(`minimumIntervalBetweenTriggers`, in ms), or the high-priority override
cooldown when the later-fired rule has `priority: 'high'`; the bound is
measured from the most recent fire regardless of which rule produced it,
so it holds a fortiori for any earlier fire. -/
theorem scheduler_cooldown_between_fires (rules : TriggerRules)
    (ticks : List TickInput) (i j : ℕ) (t₁ t₂ : ℚ) (r₁ r₂ : TriggerResult)
    (hmin : 0 ≤ rules.globalSettings.minimumIntervalBetweenTriggers)
    (hhigh : 0 ≤ jsOrDefault rules.globalSettings.priorityOverrideHigh 180)
    (hij : i < j)
    (h1 : (runTicks (mkEngine rules) ticks)[i]? = some (t₁, some r₁))
    (h2 : (runTicks (mkEngine rules) ticks)[j]? = some (t₂, some r₂)) :
    t₂ - t₁ ≥ (if r₂.rule.priority = "high"
      then jsOrDefault rules.globalSettings.priorityOverrideHigh 180 * 1000
      else rules.globalSettings.minimumIntervalBetweenTriggers * 1000) := by
  have hmm : minIntervalMs (mkEngine rules) =
      rules.globalSettings.minimumIntervalBetweenTriggers * 1000 := by
    simp [minIntervalMs, mkEngine]
  have hhm : highIntervalMs (mkEngine rules) =
      jsOrDefault rules.globalSettings.priorityOverrideHigh 180 * 1000 := by
    simp [highIntervalMs, mkEngine]
  have hmain := runTicks_two_fires ticks (mkEngine rules) i j t₁ t₂ r₁ r₂
    (by rw [hmm]; exact mul_nonneg hmin (by norm_num))
    (by rw [hhm]; exact mul_nonneg hhigh (by norm_num)) hij h1 h2
  unfold requiredIntervalFor at hmain
  rw [hmm, hhm] at hmain
  exact hmain

/-- The default `rushing` rule of `config-manager.ts`
(`getDefaultTriggerRules`). -/
def rushingRule : TriggerRule :=
  { name := "Writing Too Fast",
    description := "User is moving through material quickly",
    conditions := [("wpm", "> 40"), ("adjectiveRatio", "< 0.05"),
                   ("duration", "> 120")],
    appliesTo := ["scene", "observation"],
    timingDelay := 30,
    priority := "medium",
    coachingStyle := "gentle-brake",
    enableChat := false,
    systemPrompt := "The user is writing quickly. Gently remind them to slow down." }

/-- The default `stuck` rule of `config-manager.ts`
(`getDefaultTriggerRules`). -/
def stuckRule : TriggerRule :=
  { name := "Stuck/Blocked",
    description := "User has paused for extended period",
    conditions := [("pauseDuration", "> 180"),
                   ("currentParagraphLength", "< 50")],
    appliesTo := ["all"],
    timingDelay := 0,
    priority := "high",
    coachingStyle := "conversational",
    enableChat := true,
    systemPrompt := "The user has been paused. Open with a gentle acknowledgment." }

/-- The default trigger-rule catalog of `config-manager.ts`:
cooldown 300 s, high-priority override 180 s, auto-close on writing,
maximum conversation length 10. -/
def defaultTriggerRules : TriggerRules :=
  { triggers := [("rushing", rushingRule), ("stuck", stuckRule)],
    globalSettings :=
      { minimumIntervalBetweenTriggers := 300,
        priorityOverrideHigh := some 180,
        conversationRules := some
          { autoCloseOnWriting := true, maxConversationLength := 10 } } }

/-- A metrics snapshot of a writer stuck mid-session (pause 200 s, short
current paragraph). -/
def sampleMetrics : WritingMetrics :=
  { wpm := 0, totalWords := 0, sessionDuration := 0, adjectiveRatio := 0,
    verbRatio := 0, abstractNounRatio := 0, averageSentenceLength := 0,
    pauseDuration := 200, pauseLocation := "end-paragraph",
    deletionRatio := 0, wpmTrend := "stable", recentWPM := [],
    currentParagraphLength := 10, paragraphsSinceLastCoaching := 0 }

def sampleContext : WritingContext :=
  { writingType := "scene", recentContent := "", currentFile := "notes.md" }

def stuckResult : TriggerResult :=
  { triggerName := "stuck", rule := stuckRule, metrics := sampleMetrics,
    context := sampleContext }

def sampleTicks : List TickInput :=
  [ { now := 300000, metrics := sampleMetrics, writingType := "scene",
      context := sampleContext },
    { now := 600000, metrics := sampleMetrics, writingType := "scene",
      context := sampleContext } ]

theorem findNumericCond_gt40 :
    findNumericCond "> 40".toList = some (RelOp.gt, 40) := by
  simp +decide [findNumericCond, matchCondAt, matchSpacedNumeral, matchNumeral,
    digitsVal, isJsWhitespace]

theorem findNumericCond_lt005 :
    findNumericCond "< 0.05".toList = some (RelOp.lt, 1/20) := by
  simp +decide [findNumericCond, matchCondAt, matchSpacedNumeral, matchNumeral,
    digitsVal, isJsWhitespace]
  norm_num

theorem findNumericCond_gt120 :
    findNumericCond "> 120".toList = some (RelOp.gt, 120) := by
  simp +decide [findNumericCond, matchCondAt, matchSpacedNumeral, matchNumeral,
    digitsVal, isJsWhitespace]

theorem findNumericCond_gt180 :
    findNumericCond "> 180".toList = some (RelOp.gt, 180) := by
  simp +decide [findNumericCond, matchCondAt, matchSpacedNumeral, matchNumeral,
    digitsVal, isJsWhitespace]

theorem findNumericCond_lt50 :
    findNumericCond "< 50".toList = some (RelOp.lt, 50) := by
  simp +decide [findNumericCond, matchCondAt, matchSpacedNumeral, matchNumeral,
    digitsVal, isJsWhitespace]

theorem evaluateConditions_rushing_sample :
    evaluateConditions rushingRule.conditions sampleMetrics = false := by
  have h1 : evaluateCondition (metricValue sampleMetrics "wpm") "> 40" = false := by
    rw [evaluateCondition, findNumericCond_gt40]
    have : metricValue sampleMetrics "wpm" = JSValue.num 0 := by
      simp +decide [metricValue, sampleMetrics]
    rw [this]
    show (decide ((0:ℚ) > 40)) = false
    norm_num
  simp [evaluateConditions, rushingRule, h1]

theorem evaluateConditions_stuck_sample :
    evaluateConditions stuckRule.conditions sampleMetrics = true := by
  have h1 : evaluateCondition (metricValue sampleMetrics "pauseDuration") "> 180" = true := by
    rw [evaluateCondition, findNumericCond_gt180]
    have : metricValue sampleMetrics "pauseDuration" = JSValue.num 200 := by
      simp +decide [metricValue, sampleMetrics]
    rw [this]
    show (decide ((200:ℚ) > 180)) = true
    norm_num
  have h2 : evaluateCondition
      (metricValue sampleMetrics "currentParagraphLength") "< 50" = true := by
    rw [evaluateCondition, findNumericCond_lt50]
    have : metricValue sampleMetrics "currentParagraphLength" = JSValue.num 10 := by
      simp +decide [metricValue, sampleMetrics]
    rw [this]
    show (decide ((10:ℚ) < 50)) = true
    norm_num
  simp [evaluateConditions, stuckRule, h1, h2]

theorem checkLoop_sample (last now : ℚ) (hrate : ¬ now - last < 180000) :
    checkLoop sampleMetrics "scene" now last 300000 180000
      defaultTriggerRules.triggers = some ("stuck", stuckRule) := by
  show checkLoop sampleMetrics "scene" now last 300000 180000
      [("rushing", rushingRule), ("stuck", stuckRule)] = some ("stuck", stuckRule)
  unfold checkLoop
  rw [show appliesToType rushingRule "scene" = true by decide]
  rw [evaluateConditions_rushing_sample]
  unfold checkLoop
  rw [show appliesToType stuckRule "scene" = true by decide]
  rw [evaluateConditions_stuck_sample]
  simp only [Bool.not_true, Bool.false_eq_true, if_false, if_true]
  have hpri : (if stuckRule.priority = "high" then (180000 : ℚ) else 300000)
      = 180000 := by simp [stuckRule]
  rw [hpri, if_neg hrate]

def stuckEvent (now : ℚ) : TriggerEvent :=
  { name := "stuck", timestamp := now, metrics := sampleMetrics,
    writingType := "scene" }

theorem checkTriggers_sample_step (last : ℚ) (hist : List TriggerEvent)
    (now : ℚ) (hrate : ¬ now - last < 180000) :
    checkTriggers
      { rules := defaultTriggerRules, lastTriggerTime := last,
        triggerHistory := hist, isPaused := false, devMode := false }
      sampleMetrics "scene" sampleContext now =
    (({ rules := defaultTriggerRules, lastTriggerTime := now,
        triggerHistory :=
          (if (hist ++ [stuckEvent now]).length > 100
           then jsSliceLast 100 (hist ++ [stuckEvent now])
           else hist ++ [stuckEvent now]),
        isPaused := false, devMode := false } : EngineState),
      some stuckResult) := by
  unfold checkTriggers
  have hm : minIntervalMs
      { rules := defaultTriggerRules, lastTriggerTime := last,
        triggerHistory := hist, isPaused := false, devMode := false } = 300000 := by
    norm_num [minIntervalMs, defaultTriggerRules]
  have hh : highIntervalMs
      { rules := defaultTriggerRules, lastTriggerTime := last,
        triggerHistory := hist, isPaused := false, devMode := false } = 180000 := by
    norm_num [highIntervalMs, defaultTriggerRules, jsOrDefault]
  rw [hm, hh]
  simp only [Bool.false_eq_true, if_false]
  rw [checkLoop_sample last now hrate]
  rfl

theorem runTicks_sample_eval :
    runTicks (mkEngine defaultTriggerRules) sampleTicks =
      [(300000, some stuckResult), (600000, some stuckResult)] := by
  rw [show mkEngine defaultTriggerRules =
      { rules := defaultTriggerRules, lastTriggerTime := 0,
        triggerHistory := [], isPaused := false, devMode := false } from rfl]
  rw [sampleTicks]
  rw [runTicks]
  rw [checkTriggers_sample_step 0 [] 300000 (by norm_num)]
  rw [runTicks]
  rw [checkTriggers_sample_step 300000 _ 600000 (by norm_num)]
  rw [runTicks]

/-- C2 witness: with the default rules, two consecutive fires of the
high-priority `stuck` rule 300 s apart satisfy the 180 s override bound. -/
theorem scheduler_cooldown_between_fires_witness :
    (600000 : ℚ) - 300000 ≥
      (if stuckResult.rule.priority = "high"
       then jsOrDefault defaultTriggerRules.globalSettings.priorityOverrideHigh 180 * 1000
       else defaultTriggerRules.globalSettings.minimumIntervalBetweenTriggers * 1000) :=
  scheduler_cooldown_between_fires defaultTriggerRules sampleTicks 0 1
    300000 600000 stuckResult stuckResult
    (by norm_num [defaultTriggerRules])
    (by norm_num [defaultTriggerRules, jsOrDefault])
    (by norm_num)
    (by rw [runTicks_sample_eval]; rfl)
    (by rw [runTicks_sample_eval]; rfl)

theorem checkLoop_append (metrics : WritingMetrics) (writingType : String)
    (now lastTriggerTime minMs highMs : ℚ)
    (extra : List (String × TriggerRule)) :
    ∀ (rules : List (String × TriggerRule)) (x : String × TriggerRule),
    checkLoop metrics writingType now lastTriggerTime minMs highMs rules
      = some x →
    checkLoop metrics writingType now lastTriggerTime minMs highMs
      (rules ++ extra) = some x := by
  intro rules
  induction rules with
  | nil => intro x h; simp [checkLoop] at h
  | cons p rest ih =>
    intro x h
    obtain ⟨pname, prule⟩ := p
    rw [List.cons_append]
    unfold checkLoop at h ⊢
    by_cases happ : appliesToType prule writingType
    · simp only [happ, Bool.not_true, Bool.false_eq_true, if_false] at h ⊢
      by_cases hcond : evaluateConditions prule.conditions metrics
      · simp only [hcond, if_true] at h ⊢
        by_cases hrate : now - lastTriggerTime <
            (if prule.priority = "high" then highMs else minMs)
        · simp only [hrate, if_true] at h ⊢
          exact ih x h
        · simp only [hrate, if_false] at h ⊢
          exact h
      · simp only [hcond, Bool.false_eq_true, if_false] at h ⊢
        exact ih x h
    · simp only [happ, Bool.not_false, if_true] at h ⊢
      exact ih x h

/-- C3: when a `checkTriggers` tick fires, the call appends exactly one
`TriggerEvent` (the 100-entry cap dropping the oldest), sets the last-fire
time to the fire timestamp in the state that is in place when the
`onTrigger` listener is invoked (the source performs both updates before
the callback), returns exactly one `TriggerResult`, and evaluates no rule
after the firing one: appending any further rules to the catalog leaves
the outcome unchanged except for the stored catalog itself.  At most one
rule can fire per tick, since the single returned result and the single
appended event are produced at the only exit that fires. -/
theorem checkTriggers_fire_unique (s : EngineState) (metrics : WritingMetrics)
    (writingType : String) (context : WritingContext) (now : ℚ)
    (s' : EngineState) (r : TriggerResult)
    (h : checkTriggers s metrics writingType context now = (s', some r)) :
    s'.lastTriggerTime = now ∧
    s'.triggerHistory =
      (if (s.triggerHistory ++ [(⟨r.triggerName, now, metrics, writingType⟩ : TriggerEvent)]).length > 100
       then jsSliceLast 100 (s.triggerHistory ++ [(⟨r.triggerName, now, metrics, writingType⟩ : TriggerEvent)])
       else s.triggerHistory ++ [(⟨r.triggerName, now, metrics, writingType⟩ : TriggerEvent)]) ∧
    (∀ extra, checkLoop metrics writingType now s.lastTriggerTime
        (minIntervalMs s) (highIntervalMs s) (s.rules.triggers ++ extra)
      = checkLoop metrics writingType now s.lastTriggerTime
        (minIntervalMs s) (highIntervalMs s) s.rules.triggers) := by
  unfold checkTriggers at h
  by_cases hp : s.isPaused
  · rw [if_pos hp] at h
    exact absurd (congrArg Prod.snd h) (by simp)
  · rw [if_neg hp] at h
    cases hloop : checkLoop metrics writingType now s.lastTriggerTime
        (minIntervalMs s) (highIntervalMs s) s.rules.triggers with
    | none =>
      rw [hloop] at h
      exact absurd (congrArg Prod.snd h) (by simp)
    | some p =>
      obtain ⟨pname, prule⟩ := p
      rw [hloop] at h
      have hfst := congrArg Prod.fst h
      have hsnd := congrArg Prod.snd h
      simp only at hfst hsnd
      have hr : r = ⟨pname, prule, metrics, context⟩ :=
        (Option.some.inj hsnd).symm
      refine ⟨by rw [← hfst], ?_, ?_⟩
      · rw [← hfst, hr]
      · intro extra
        exact checkLoop_append metrics writingType now s.lastTriggerTime
          (minIntervalMs s) (highIntervalMs s) extra
          s.rules.triggers (pname, prule) hloop

def engineAfterFire : EngineState :=
  { rules := defaultTriggerRules, lastTriggerTime := 300000,
    triggerHistory := [stuckEvent 300000], isPaused := false,
    devMode := false }

/-- C3 witness: the default `stuck` fire at t = 300000 from a fresh engine,
with one extra rule appended to show the loop outcome is unchanged. -/
theorem checkTriggers_fire_unique_witness :
    engineAfterFire.lastTriggerTime = 300000 ∧
    engineAfterFire.triggerHistory =
      (if ((mkEngine defaultTriggerRules).triggerHistory ++
          [(⟨stuckResult.triggerName, 300000, sampleMetrics, "scene"⟩ : TriggerEvent)]).length > 100
       then jsSliceLast 100 ((mkEngine defaultTriggerRules).triggerHistory ++
          [(⟨stuckResult.triggerName, 300000, sampleMetrics, "scene"⟩ : TriggerEvent)])
       else (mkEngine defaultTriggerRules).triggerHistory ++
          [(⟨stuckResult.triggerName, 300000, sampleMetrics, "scene"⟩ : TriggerEvent)]) ∧
    checkLoop sampleMetrics "scene" 300000
      (mkEngine defaultTriggerRules).lastTriggerTime
      (minIntervalMs (mkEngine defaultTriggerRules))
      (highIntervalMs (mkEngine defaultTriggerRules))
      ((mkEngine defaultTriggerRules).rules.triggers ++ [("rushing2", rushingRule)])
      = checkLoop sampleMetrics "scene" 300000
        (mkEngine defaultTriggerRules).lastTriggerTime
        (minIntervalMs (mkEngine defaultTriggerRules))
        (highIntervalMs (mkEngine defaultTriggerRules))
        (mkEngine defaultTriggerRules).rules.triggers := by
  have h : checkTriggers (mkEngine defaultTriggerRules) sampleMetrics "scene"
      sampleContext 300000 = (engineAfterFire, some stuckResult) := by
    rw [show mkEngine defaultTriggerRules =
        (⟨defaultTriggerRules, 0, [], false, false⟩ : EngineState) from rfl]
    rw [checkTriggers_sample_step 0 [] 300000 (by norm_num)]
    norm_num [engineAfterFire]
  have ht := checkTriggers_fire_unique (mkEngine defaultTriggerRules)
    sampleMetrics "scene" sampleContext 300000 engineAfterFire stuckResult h
  exact ⟨ht.1, ht.2.1, ht.2.2 [("rushing2", rushingRule)]⟩

/-- C10: for an existing rule name, `forceTrigger` returns a
`TriggerResult` built from that rule while leaving the engine state
untouched: `lastTriggerTime` is not updated, no `TriggerEvent` is appended
to the history, and — because the state is arbitrary here, including a
paused engine inside an unelapsed cooldown — the call is blocked neither
by the pause flag nor by rate limiting; any subsequent sequence of
scheduled ticks behaves exactly as if the forced fire had not happened. -/
theorem forceTrigger_pure (s : EngineState) (triggerName : String)
    (metrics : WritingMetrics) (context : WritingContext) (rule : TriggerRule)
    (h : lookupRule s.rules.triggers triggerName = some rule) :
    forceTrigger s triggerName metrics context =
      (s, some { triggerName := triggerName, rule := rule, metrics := metrics,
                 context := context }) ∧
    (forceTrigger s triggerName metrics context).1.lastTriggerTime
      = s.lastTriggerTime ∧
    (forceTrigger s triggerName metrics context).1.triggerHistory
      = s.triggerHistory ∧
    (∀ ticks, runTicks (forceTrigger s triggerName metrics context).1 ticks
      = runTicks s ticks) := by
  unfold forceTrigger
  rw [h]
  exact ⟨rfl, rfl, rfl, fun _ => rfl⟩

def pausedEngine : EngineState :=
  { rules := defaultTriggerRules, lastTriggerTime := 299999,
    triggerHistory := [], isPaused := true, devMode := false }

/-- C10 witness: forcing `stuck` on a paused engine well inside the
cooldown still returns the result and changes nothing. -/
theorem forceTrigger_pure_witness :
    forceTrigger pausedEngine "stuck" sampleMetrics sampleContext =
      (pausedEngine,
        some (⟨"stuck", stuckRule, sampleMetrics, sampleContext⟩ : TriggerResult)) ∧
    (forceTrigger pausedEngine "stuck" sampleMetrics sampleContext).1.lastTriggerTime
      = pausedEngine.lastTriggerTime ∧
    (forceTrigger pausedEngine "stuck" sampleMetrics sampleContext).1.triggerHistory
      = pausedEngine.triggerHistory ∧
    runTicks (forceTrigger pausedEngine "stuck" sampleMetrics sampleContext).1
      sampleTicks = runTicks pausedEngine sampleTicks := by
  have h : lookupRule pausedEngine.rules.triggers "stuck" = some stuckRule := by
    simp +decide [lookupRule, pausedEngine, defaultTriggerRules, List.find?]
  have ht := forceTrigger_pure pausedEngine "stuck" sampleMetrics
    sampleContext stuckRule h
  exact ⟨ht.1, ht.2.1, ht.2.2.1, ht.2.2.2 sampleTicks⟩

/-- `ConversationMessage` of `types.ts`. -/
structure ConversationMessage where
  role : String
  content : String
  timestamp : ℚ
deriving DecidableEq

/-- The conversation-session state spread across the plugin's classes:
`CoachingView.isInConversation` and `CoachingView.conversationHistory`
(`coaching-view.ts`), `ClaudeClient.conversationHistory`
(`claude-client.ts`), and `WritingCoachPlugin.lastContent` (`main.ts`). -/
structure SessionState where
  viewInConversation : Bool
  viewHistory : List ConversationMessage
  clientHistory : List ConversationMessage
  lastContent : String
deriving DecidableEq

/-- All four fields at their class initialisers. -/
def initialSession : SessionState :=
  { viewInConversation := false, viewHistory := [], clientHistory := [],
    lastContent := "" }

/-- The session-relevant events of the single-threaded event loop.  An
`await` splits `handleChatMessage` in two: `chatSend` is the part before
the backend call and `backendResponse` is the continuation that runs when
the call resolves — possibly after other events. -/
inductive SessionEvent where
  | conversationStart (userMsg assistantMsg : String) (t : ℚ)
  | editorChange (content : String)
  | chatSend (text : String) (t : ℚ)
  | backendResponse (text : String) (t : ℚ)
deriving DecidableEq

/-- One event of the session subsystem:
* `conversationStart`: a chat-enabled coaching message arrives —
  `generateCoaching` seeds the client history with the first exchange
  (`claude-client.ts` 607–612) and `showCoaching`/`showChatInterface`
  set `isInConversation := true` (`coaching-view.ts` 256–258, 272–277);
* `editorChange`: `onEditorChange` of `main.ts` (232–249) — while in
  conversation, if the content changed and `autoCloseOnWriting` is set,
  `hideChatInterface` clears the view flag and view history
  (`coaching-view.ts` 356–360) and `resetConversation` clears the client
  history (`claude-client.ts`); `lastContent` is then always updated;
* `chatSend`: `handleChatMessage` before its `await` (`main.ts` 319–327)
  appends the user turn to the view, and `continueConversation` appends
  it to the client history before calling the API (`claude-client.ts`
  633–638);
* `backendResponse`: the continuation after the `await` — the assistant
  turn is appended to the client history (`claude-client.ts` 646–651) and
  to the view via `addChatMessage` (`main.ts` 345–350), with no check
  that the conversation is still open. -/
def sessionStep (conversationRules : Option ConversationRules)
    (s : SessionState) : SessionEvent → SessionState
  | .conversationStart u a t =>
    { s with viewInConversation := true,
             clientHistory := [⟨"user", u, t⟩, ⟨"assistant", a, t⟩] }
  | .editorChange content =>
    let closed :=
      if s.viewInConversation = true ∧ content ≠ s.lastContent ∧
          (match conversationRules with
           | some cr => cr.autoCloseOnWriting
           | none => false) = true then
        { s with viewInConversation := false, viewHistory := [],
                 clientHistory := [] }
      else s
    { closed with lastContent := content }
  | .chatSend text t =>
    { s with viewHistory := s.viewHistory ++ [⟨"user", text, t⟩],
             clientHistory := s.clientHistory ++ [⟨"user", text, t⟩] }
  | .backendResponse text t =>
    { s with clientHistory := s.clientHistory ++ [⟨"assistant", text, t⟩],
             viewHistory := s.viewHistory ++ [⟨"assistant", text, t⟩] }

/-- A sequence of session events applied in order. -/
def runSession (conversationRules : Option ConversationRules)
    (s : SessionState) (events : List SessionEvent) : SessionState :=
  events.foldl (sessionStep conversationRules) s

/-- Trace for C4: a conversation starts, the user sends a chat turn, the
user resumes writing (closing the conversation), and only then does the
backend response to the chat turn arrive. -/
def lateResponseEvents : List SessionEvent :=
  [SessionEvent.conversationStart "I seem stuck." "What feels hard?" 0,
   SessionEvent.chatSend "The middle part." 1,
   SessionEvent.editorChange "new text"]

/-- C4 (counterexample): after the auto-close the claim demands that a
late backend response produce no session-state mutation; in the code the
response handler still appends the assistant turn to both the client and
the view histories, so the state does mutate. -/
theorem late_response_mutates_counterexample :
    (runSession (some ⟨true, 10⟩) initialSession lateResponseEvents).clientHistory
      = [] ∧
    (runSession (some ⟨true, 10⟩) initialSession
        (lateResponseEvents ++ [SessionEvent.backendResponse "late reply" 2])).clientHistory
      = [⟨"assistant", "late reply", 2⟩] ∧
    runSession (some ⟨true, 10⟩) initialSession
        (lateResponseEvents ++ [SessionEvent.backendResponse "late reply" 2])
      ≠ runSession (some ⟨true, 10⟩) initialSession lateResponseEvents := by
  refine ⟨?_, ?_, ?_⟩ <;>
    simp +decide [runSession, lateResponseEvents, sessionStep, initialSession]

/-- C4 (amended): while the session is conversing, auto-close is enabled
and an edit changes the content, the session immediately returns to idle
with both turn histories cleared; a backend response arriving after that
transition does not reopen the conversation — the in-conversation flag
stays `false`, so the chat interface stays closed — but it is still
appended to the stored client and view histories rather than discarded. -/
theorem session_autoclose_on_edit (cr : ConversationRules) (s : SessionState)
    (content : String)
    (hconv : s.viewInConversation = true)
    (hauto : cr.autoCloseOnWriting = true)
    (hchanged : content ≠ s.lastContent) :
    sessionStep (some cr) s (.editorChange content) =
      { viewInConversation := false, viewHistory := [], clientHistory := [],
        lastContent := content } ∧
    (∀ text t,
      (sessionStep (some cr)
        (sessionStep (some cr) s (.editorChange content))
        (.backendResponse text t)).viewInConversation = false) := by
  have hclose : sessionStep (some cr) s (.editorChange content) =
      { viewInConversation := false, viewHistory := [], clientHistory := [],
        lastContent := content } := by
    simp only [sessionStep]
    rw [if_pos ⟨hconv, hchanged, hauto⟩]
  exact ⟨hclose, fun text t => by rw [hclose]; rfl⟩

/-- C4 witness: the concrete closing edit and late response. -/
theorem session_autoclose_on_edit_witness :
    sessionStep (some ⟨true, 10⟩)
        (⟨true, [], [⟨"user", "hi", 0⟩], "old"⟩ : SessionState)
        (.editorChange "old and new") =
      { viewInConversation := false, viewHistory := [], clientHistory := [],
        lastContent := "old and new" } ∧
    (sessionStep (some ⟨true, 10⟩)
      (sessionStep (some ⟨true, 10⟩)
        (⟨true, [], [⟨"user", "hi", 0⟩], "old"⟩ : SessionState)
        (.editorChange "old and new"))
      (.backendResponse "late" 5)).viewInConversation = false := by
  have h := session_autoclose_on_edit ⟨true, 10⟩
    (⟨true, [], [⟨"user", "hi", 0⟩], "old"⟩ : SessionState) "old and new"
    rfl rfl (by decide)
  exact ⟨h.1, h.2 "late" 5⟩

/-- Trace for C5: a conversation starts and four further exchanges follow
with no intervening edit — five exchanges in total against a configured
`maxConversationLength` of 3. -/
def longConversationEvents : List SessionEvent :=
  [SessionEvent.conversationStart "u0" "a0" 0,
   SessionEvent.chatSend "u1" 1, SessionEvent.backendResponse "a1" 2,
   SessionEvent.chatSend "u2" 3, SessionEvent.backendResponse "a2" 4,
   SessionEvent.chatSend "u3" 5, SessionEvent.backendResponse "a3" 6,
   SessionEvent.chatSend "u4" 7, SessionEvent.backendResponse "a4" 8]

/-- C5 (code behaviour at the failing input): no event handler reads
`maxConversationLength` — the session evolution is identical for any two
values of the limit — and with the limit configured to 3 a conversation
accumulates 10 turns (5 exchanges) while remaining in the conversing
state, with no forced transition to idle. -/
theorem maxConversationLength_never_enforced :
    (∀ (q q' : ℚ) (s : SessionState) (e : SessionEvent),
      sessionStep (some ⟨true, q⟩) s e = sessionStep (some ⟨true, q'⟩) s e) ∧
    (runSession (some ⟨true, 3⟩) initialSession
        longConversationEvents).viewInConversation = true ∧
    (runSession (some ⟨true, 3⟩) initialSession
        longConversationEvents).clientHistory.length = 10 := by
  refine ⟨?_, ?_, ?_⟩
  · intro q q' s e
    cases e <;> rfl
  · simp +decide [runSession, longConversationEvents, sessionStep, initialSession]
  · simp +decide [runSession, longConversationEvents, sessionStep, initialSession]

/-- Sentence terminators of the split `/[.!?。！？]+/` in `analyzeText`. -/
def isSentenceTerminator (c : Char) : Bool :=
  c = '.' || c = '!' || c = '?' || c = '。' || c = '！' || c = '？'

/-- `text.split(/\n\n+/)`: split at each maximal run of two or more
newlines, keeping empty pieces as JS `split` does. -/
def splitDoubleNewline (l : List Char) : List (List Char) :=
  go l []
where
  go : List Char → List Char → List (List Char)
    | [], acc => [acc.reverse]
    | '\n' :: '\n' :: rest, acc =>
      acc.reverse :: go (rest.dropWhile (fun c => c = '\n')) []
    | c :: rest, acc => go rest (c :: acc)
  termination_by l _ => l.length
  decreasing_by
    · have := dropWhile_length_le (fun c => c = '\n') rest
      simp only [List.length_cons]; omega
    · simp only [List.length_cons]; omega

namespace SensorV1

/-- The word list `analyzeText` classifies:
`text.toLowerCase().split(/\s+/).filter(w => w.length > 0)`
(lower-casing modelled per character). -/
def documentWords (text : String) : List String :=
  (splitRuns isJsWhitespace (text.toList.map Char.toLower)).map
    (fun cs => String.mk cs)

/-- `EditEvent` of `types.ts` as the sensor populates it (the `from`/`to`
positions are always `{line: 0, ch: 0}` and are omitted). -/
structure EditEvent where
  timestamp : ℚ
  text : String
  removed : String
deriving DecidableEq

/-- Mutable fields of the `WritingSensor` class of `sensor.ts` (the timer
handle and callback are runtime plumbing and carry no sensor state). -/
structure SensorState where
  metrics : WritingMetrics
  lastText : String
  lastEditTime : ℚ
  sessionStartTime : ℚ
  editHistory : List EditEvent
  recentWPMReadings : List ℚ
  isFirstEdit : Bool
deriving DecidableEq

/-- `getDefaultMetrics` of `sensor.ts`. -/
def getDefaultMetrics : WritingMetrics :=
  { wpm := 0, totalWords := 0, sessionDuration := 0, adjectiveRatio := 0,
    verbRatio := 0, abstractNounRatio := 0, averageSentenceLength := 0,
    pauseDuration := 0, pauseLocation := "unknown", deletionRatio := 0,
    wpmTrend := "stable", recentWPM := [], currentParagraphLength := 0,
    paragraphsSinceLastCoaching := 0 }

/-- The constructor and field initialisers of `WritingSensor`
(`Date.now()` readings are the parameter `now`). -/
def initialSensor (now : ℚ) : SensorState :=
  { metrics := getDefaultMetrics, lastText := "", lastEditTime := now,
    sessionStartTime := now, editHistory := [], recentWPMReadings := [],
    isFirstEdit := true }

/-- `getAddedText` of `src/sensor.ts` (lines 345–352): the trailing
suffix when the text grew, with no paste suppression in this version. -/
def getAddedText (oldText newText : String) : String :=
  if oldText.length < newText.length then
    String.mk (newText.toList.drop oldText.length)
  else ""

/-- `getRemovedText` of `sensor.ts` (lines 357–363):
`oldText.substring(oldText.length - diff)` with
`diff = oldText.length - newText.length`. -/
def getRemovedText (oldText newText : String) : String :=
  if newText.length < oldText.length then
    String.mk (oldText.toList.drop
      (oldText.length - (oldText.length - newText.length)))
  else ""

/-- `onEditorChange` of `sensor.ts` (lines 121–158); `currentText` is
`editor.getValue()` and `now` is `Date.now()`.  The trailing
`updatePauseLocation` call classifies the cursor position, which is
editor state outside this model; it writes only `metrics.pauseLocation`,
a field no claim here touches. -/
def onEditorChange (now : ℚ) (currentText : String) (s : SensorState) :
    SensorState :=
  if s.isFirstEdit then
    { s with lastText := currentText, isFirstEdit := false }
  else
    let addedText := getAddedText s.lastText currentText
    let removedText := getRemovedText s.lastText currentText
    let s1 :=
      if addedText ≠ "" ∨ removedText ≠ "" then
        { s with
          editHistory :=
            (s.editHistory ++
                [(⟨now, addedText, removedText⟩ : EditEvent)]).filter
              (fun e => e.timestamp > now - 600000),
          lastEditTime := now }
      else s
    { s1 with lastText := currentText }

/-- `calculateWPM` of `sensor.ts` (lines 209–218): sum of word counts of
the recorded insertions in the trailing 60 s window. -/
def calculateWPM (now : ℚ) (editHistory : List EditEvent) : ℚ :=
  ((editHistory.filter (fun e => e.timestamp > now - 60000)).map
    (fun e => countWords e.text)).sum

/-- `calculateDeletionRatio` of `sensor.ts` (lines 223–236). -/
def calculateDeletionRatio (now : ℚ) (editHistory : List EditEvent) : ℚ :=
  let recentEdits := editHistory.filter (fun e => e.timestamp > now - 300000)
  let written := ((recentEdits.map (fun e => (e.text.length : ℚ))).sum)
  let deleted := ((recentEdits.map (fun e => (e.removed.length : ℚ))).sum)
  if written > 0 then deleted / written else 0

/-- `analyzeText` of `src/sensor.ts` (lines 241–280): lexical ratios from
the lower-cased whitespace tokens, average sentence length from the
sentence split, current paragraph length from the paragraph split. -/
def analyzeText (metrics : WritingMetrics) (text : String) : WritingMetrics :=
  let words := documentWords text
  let totalWords := words.length
  if totalWords = 0 then
    { metrics with adjectiveRatio := 0, verbRatio := 0,
                   abstractNounRatio := 0, averageSentenceLength := 0 }
  else
    let adjectives := words.filter isAdjective
    let verbs := words.filter isVerb
    let abstractNouns := words.filter (fun w => ABSTRACT_NOUNS.contains w)
    let sentences := (splitRuns isSentenceTerminator text.toList).filter
      (fun sCs => !(sCs.all isJsWhitespace))
    let averageSentenceLength : ℚ :=
      if sentences.length > 0 then
        ((sentences.map (fun sCs => countWords (String.mk sCs))).sum) /
          sentences.length
      else 0
    let paragraphs := splitDoubleNewline text.toList
    let lastParagraph := (paragraphs.getLast?).getD []
    { metrics with
      adjectiveRatio := (adjectives.length : ℚ) / totalWords,
      verbRatio := (verbs.length : ℚ) / totalWords,
      abstractNounRatio := (abstractNouns.length : ℚ) / totalWords,
      averageSentenceLength := averageSentenceLength,
      currentParagraphLength := countWords (String.mk lastParagraph) }

/-- `updateMetrics` of `sensor.ts` (lines 163–204), the 5-second
recomputation; `now` is `Date.now()`. -/
def updateMetrics (now : ℚ) (s : SensorState) : SensorState :=
  let m1 := { s.metrics with
    sessionDuration := (now - s.sessionStartTime) / 60000 }
  let wpm := calculateWPM now s.editHistory
  let m2 := { m1 with wpm := wpm }
  let readings0 := s.recentWPMReadings ++ [wpm]
  let readings := if readings0.length > 10 then readings0.drop 1 else readings0
  let m3 := { m2 with recentWPM := readings,
                      wpmTrend := calculateTrend readings }
  let m4 := if s.lastText ≠ "" then analyzeText m3 s.lastText else m3
  let m5 := { m4 with
    pauseDuration := (now - s.lastEditTime) / 1000,
    deletionRatio := calculateDeletionRatio now s.editHistory,
    totalWords := countWords s.lastText }
  { s with metrics := m5, recentWPMReadings := readings }

end SensorV1

namespace SensorV1

theorem onEditorChange_metrics (now : ℚ) (currentText : String)
    (s : SensorState) :
    (onEditorChange now currentText s).metrics = s.metrics := by
  unfold onEditorChange
  by_cases h : s.isFirstEdit
  · rw [if_pos h]
  · rw [if_neg h]
    dsimp only
    split
    · rfl
    · rfl

theorem onEditorChange_lastText (now : ℚ) (currentText : String)
    (s : SensorState) :
    (onEditorChange now currentText s).lastText = currentText := by
  unfold onEditorChange
  by_cases h : s.isFirstEdit
  · rw [if_pos h]
  · rw [if_neg h]

theorem updateMetrics_ratios_formula (s : SensorState) (now : ℚ)
    (hne : s.lastText ≠ "") (hwords : (documentWords s.lastText).length ≠ 0) :
    (updateMetrics now s).metrics.adjectiveRatio
      = (((documentWords s.lastText).filter isAdjective).length : ℚ)
        / (documentWords s.lastText).length ∧
    (updateMetrics now s).metrics.verbRatio
      = (((documentWords s.lastText).filter isVerb).length : ℚ)
        / (documentWords s.lastText).length ∧
    (updateMetrics now s).metrics.abstractNounRatio
      = (((documentWords s.lastText).filter
          (fun w => ABSTRACT_NOUNS.contains w)).length : ℚ)
        / (documentWords s.lastText).length := by
  unfold updateMetrics
  dsimp only
  rw [if_pos hne]
  unfold analyzeText
  dsimp only
  rw [if_neg hwords]
  exact ⟨rfl, rfl, rfl⟩

theorem updateMetrics_ratios_zero (s : SensorState) (now : ℚ)
    (hne : s.lastText ≠ "") (hwords : (documentWords s.lastText).length = 0) :
    (updateMetrics now s).metrics.adjectiveRatio = 0 ∧
    (updateMetrics now s).metrics.verbRatio = 0 ∧
    (updateMetrics now s).metrics.abstractNounRatio = 0 := by
  unfold updateMetrics
  dsimp only
  rw [if_pos hne]
  unfold analyzeText
  dsimp only
  rw [if_pos hwords]
  exact ⟨rfl, rfl, rfl⟩

theorem updateMetrics_ratios_stale (s : SensorState) (now : ℚ)
    (hempty : s.lastText = "") :
    (updateMetrics now s).metrics.adjectiveRatio = s.metrics.adjectiveRatio ∧
    (updateMetrics now s).metrics.verbRatio = s.metrics.verbRatio ∧
    (updateMetrics now s).metrics.abstractNounRatio
      = s.metrics.abstractNounRatio := by
  unfold updateMetrics
  dsimp only
  rw [if_neg (by simp [hempty])]
  exact ⟨rfl, rfl, rfl⟩

end SensorV1

/-- C9 (counterexample): write `beautiful`, recompute (adjective ratio
becomes 1), delete everything, recompute again.  The empty document has
token count 0, so the claim demands ratio 0, but `updateMetrics` skips
`analyzeText` for falsy text (`if (this.lastText)`) and the ratio stays at
its stale value 1. -/
theorem stale_ratio_counterexample :
    (SensorV1.documentWords "").length = 0 ∧
    (SensorV1.updateMetrics 3 (SensorV1.onEditorChange 2 ""
        (SensorV1.updateMetrics 1 (SensorV1.onEditorChange 0 "beautiful"
          (SensorV1.initialSensor 0))))).metrics.adjectiveRatio = 1 ∧
    (1 : ℚ) ≠ 0 := by
  refine ⟨by simp +decide [SensorV1.documentWords, splitRuns], ?_, by norm_num⟩
  have hs1 : SensorV1.onEditorChange 0 "beautiful" (SensorV1.initialSensor 0)
      = { metrics := SensorV1.getDefaultMetrics, lastText := "beautiful",
          lastEditTime := 0, sessionStartTime := 0, editHistory := [],
          recentWPMReadings := [], isFirstEdit := false } := rfl
  set s2 := SensorV1.updateMetrics 1 (SensorV1.onEditorChange 0 "beautiful"
    (SensorV1.initialSensor 0)) with hs2
  have hs2text : s2.lastText = "beautiful" := by rw [hs2, hs1]; rfl
  have hratio : s2.metrics.adjectiveRatio = 1 := by
    have hf := SensorV1.updateMetrics_ratios_formula
      (SensorV1.onEditorChange 0 "beautiful" (SensorV1.initialSensor 0)) 1
      (by rw [hs1]; decide)
      (by rw [hs1]; simp +decide [SensorV1.documentWords, splitRuns])
    rw [← hs2] at hf
    rw [hf.1]
    rw [hs1]
    have hw : SensorV1.documentWords "beautiful" = ["beautiful"] := by
      simp +decide [SensorV1.documentWords, splitRuns]
    have hfil : (["beautiful"] : List String).filter SensorV1.isAdjective
        = ["beautiful"] := by decide
    show (((SensorV1.documentWords "beautiful").filter SensorV1.isAdjective).length : ℚ)
        / (SensorV1.documentWords "beautiful").length = 1
    rw [hw, hfil]
    norm_num
  set s3 := SensorV1.onEditorChange 2 "" s2 with hs3
  have hs3text : s3.lastText = "" := SensorV1.onEditorChange_lastText 2 "" s2
  have hs3m : s3.metrics = s2.metrics := SensorV1.onEditorChange_metrics 2 "" s2
  have hstale := SensorV1.updateMetrics_ratios_stale s3 3 hs3text
  rw [hstale.1, hs3m, hratio]

/-- C9 (amended): after every recomputation, when the current document
text is non-empty each ratio equals the number of tokens classified into
that category divided by the total token count, and equals 0 when the
token count is 0; but when the current text is the empty string the
recomputation skips text analysis entirely and each ratio keeps its
previous (possibly stale, non-zero) value. -/
theorem metrics_ratios_after_update (s : SensorV1.SensorState) (now : ℚ) :
    (s.lastText ≠ "" → (SensorV1.documentWords s.lastText).length ≠ 0 →
      (SensorV1.updateMetrics now s).metrics.adjectiveRatio
        = (((SensorV1.documentWords s.lastText).filter SensorV1.isAdjective).length : ℚ)
          / (SensorV1.documentWords s.lastText).length ∧
      (SensorV1.updateMetrics now s).metrics.verbRatio
        = (((SensorV1.documentWords s.lastText).filter SensorV1.isVerb).length : ℚ)
          / (SensorV1.documentWords s.lastText).length ∧
      (SensorV1.updateMetrics now s).metrics.abstractNounRatio
        = (((SensorV1.documentWords s.lastText).filter
            (fun w => SensorV1.ABSTRACT_NOUNS.contains w)).length : ℚ)
          / (SensorV1.documentWords s.lastText).length) ∧
    (s.lastText ≠ "" → (SensorV1.documentWords s.lastText).length = 0 →
      (SensorV1.updateMetrics now s).metrics.adjectiveRatio = 0 ∧
      (SensorV1.updateMetrics now s).metrics.verbRatio = 0 ∧
      (SensorV1.updateMetrics now s).metrics.abstractNounRatio = 0) ∧
    (s.lastText = "" →
      (SensorV1.updateMetrics now s).metrics.adjectiveRatio
        = s.metrics.adjectiveRatio ∧
      (SensorV1.updateMetrics now s).metrics.verbRatio = s.metrics.verbRatio ∧
      (SensorV1.updateMetrics now s).metrics.abstractNounRatio
        = s.metrics.abstractNounRatio) :=
  ⟨fun hne hw => SensorV1.updateMetrics_ratios_formula s now hne hw,
   fun hne hw => SensorV1.updateMetrics_ratios_zero s now hne hw,
   fun he => SensorV1.updateMetrics_ratios_stale s now he⟩

/-- C9 witness: the ratio formula at a concrete one-word document and the
stale-retention case at a concrete empty document. -/
theorem metrics_ratios_after_update_witness :
    (SensorV1.updateMetrics 5
      { metrics := SensorV1.getDefaultMetrics, lastText := "beautiful",
        lastEditTime := 0, sessionStartTime := 0, editHistory := [],
        recentWPMReadings := [], isFirstEdit := false }).metrics.adjectiveRatio
      = (((SensorV1.documentWords "beautiful").filter SensorV1.isAdjective).length : ℚ)
        / (SensorV1.documentWords "beautiful").length ∧
    (SensorV1.updateMetrics 5
      { metrics := SensorV1.getDefaultMetrics, lastText := "",
        lastEditTime := 0, sessionStartTime := 0, editHistory := [],
        recentWPMReadings := [], isFirstEdit := false }).metrics.adjectiveRatio
      = SensorV1.getDefaultMetrics.adjectiveRatio :=
  ⟨((metrics_ratios_after_update
      { metrics := SensorV1.getDefaultMetrics, lastText := "beautiful",
        lastEditTime := 0, sessionStartTime := 0, editHistory := [],
        recentWPMReadings := [], isFirstEdit := false } 5).1
      (by decide)
      (by simp +decide [SensorV1.documentWords, splitRuns])).1,
   ((metrics_ratios_after_update
      { metrics := SensorV1.getDefaultMetrics, lastText := "",
        lastEditTime := 0, sessionStartTime := 0, editHistory := [],
        recentWPMReadings := [], isFirstEdit := false } 5).2.2 rfl).1⟩

namespace SensorV2

/-- `EditEvent` as the newer sensor (`part_003`) populates it; the
constant `{line: 0, ch: 0}` positions are omitted. -/
structure EditEvent where
  timestamp : ℚ
  text : String
  removed : String
deriving DecidableEq

/-- Mutable fields of the edit-ingestion path of the newer
`WritingSensor` (`part_003`): the metrics record and WPM readings are
written only by its 5-second recomputation, whose `wpm` field is the
`calculateWPM` value proved about below. -/
structure SensorState where
  lastText : String
  lastEditTime : ℚ
  editHistory : List EditEvent
  isFirstEdit : Bool
  isPaused : Bool
  currentFilePath : String
deriving DecidableEq

/-- Field initialisers of the class (`Date.now()` is `now`). -/
def initialSensor (now : ℚ) : SensorState :=
  { lastText := "", lastEditTime := now, editHistory := [],
    isFirstEdit := true, isPaused := false, currentFilePath := "" }

/-- `countWords` of the newer sensor (`part_003` lines 475–492),
identical to the other version. -/
def countWords (text : String) : ℚ :=
  let chars := text.toList
  if chars.all isJsWhitespace then 0
  else
    let chineseChars := chars.filter isChineseChar
    let englishOnly := chars.map (fun c => if isChineseChar c then ' ' else c)
    let englishWords := splitRuns isJsWhitespace englishOnly
    ((jsRound ((chineseChars.length : ℚ) * (1/2) + englishWords.length) : ℤ) : ℚ)

/-- `getAddedText` of the newer sensor (`part_003` lines 442–457): a
length growth above 50 characters is treated as a paste and suppressed;
otherwise the added text is
`newText.substring(newText.length - lengthDiff)`. -/
def getAddedText (oldText newText : String) : String :=
  let lengthDiff : ℤ := (newText.length : ℤ) - oldText.length
  if lengthDiff > 50 then ""
  else if lengthDiff > 0 then
    String.mk (newText.toList.drop ((newText.length : ℤ) - lengthDiff).toNat)
  else ""

/-- `getRemovedText` of the newer sensor (`part_003` lines 462–468):
`oldText.substring(oldText.length - diff)` with
`diff = oldText.length - newText.length`; no size threshold. -/
def getRemovedText (oldText newText : String) : String :=
  if newText.length < oldText.length then
    String.mk (oldText.toList.drop
      (oldText.length - (oldText.length - newText.length)))
  else ""

/-- `onEditorChange` of the newer sensor (`part_003` lines 167–204);
the trailing `updatePauseLocation` call only classifies the cursor
position, editor state outside this model. -/
def onEditorChange (now : ℚ) (currentText : String) (s : SensorState) :
    SensorState :=
  if s.isFirstEdit then
    { s with lastText := currentText, isFirstEdit := false }
  else
    let addedText := getAddedText s.lastText currentText
    let removedText := getRemovedText s.lastText currentText
    let s1 :=
      if addedText ≠ "" ∨ removedText ≠ "" then
        { s with
          editHistory :=
            (s.editHistory ++
                [(⟨now, addedText, removedText⟩ : EditEvent)]).filter
              (fun e => e.timestamp > now - 600000),
          lastEditTime := now }
      else s
    { s1 with lastText := currentText }

/-- `calculateWPM` of the newer sensor (`part_003` lines 255–264); the
5-second recomputation assigns exactly this value to `metrics.wpm`. -/
def calculateWPM (now : ℚ) (editHistory : List EditEvent) : ℚ :=
  ((editHistory.filter (fun e => e.timestamp > now - 60000)).map
    (fun e => countWords e.text)).sum

/-- One raw editor change: the `Date.now()` reading and the full new
document text (`editor.getValue()`). -/
structure RawChange where
  now : ℚ
  text : String
deriving DecidableEq

/-- A sequence of editor changes fed to the sensor in order. -/
def runSensor (s : SensorState) (cs : List RawChange) : SensorState :=
  cs.foldl (fun st c => onEditorChange c.now c.text st) s

/-- The inserted text of a raw change, as worded by claim C1: the new
suffix when the document grew, empty otherwise. -/
def insertedText (oldText newText : String) : String :=
  if oldText.length < newText.length then
    String.mk (newText.toList.drop oldText.length)
  else ""

/-- The claim-side value of the speed metric: the sum of word counts of
the inserted text of exactly those edits whose timestamp lies in the
trailing 60-second window, with insertions longer than 50 characters
excluded; deletions contribute nothing. -/
def specWpmSum (now : ℚ) : String → List RawChange → ℚ
  | _, [] => 0
  | oldText, c :: rest =>
    (if c.now > now - 60000 ∧ oldText.length < c.text.length ∧
        c.text.length - oldText.length ≤ 50
     then countWords (insertedText oldText c.text) else 0)
      + specWpmSum now c.text rest

theorem countWords_nonneg (text : String) : 0 ≤ countWords text := by
  unfold countWords
  dsimp only
  by_cases h : text.toList.all isJsWhitespace
  · rw [if_pos h]
  · rw [if_neg h]
    have hq : (0 : ℚ) ≤ (text.toList.filter isChineseChar).length * (1/2) +
        (splitRuns isJsWhitespace
          (text.toList.map fun c => if isChineseChar c then ' ' else c)).length := by
      positivity
    have : (0 : ℤ) ≤ jsRound ((text.toList.filter isChineseChar).length * (1/2) +
        (splitRuns isJsWhitespace
          (text.toList.map fun c => if isChineseChar c then ' ' else c)).length) := by
      unfold jsRound
      rw [Int.le_floor]
      push_cast
      linarith
    exact_mod_cast this

theorem calculateWPM_nonneg (now : ℚ) (editHistory : List EditEvent) :
    0 ≤ calculateWPM now editHistory := by
  unfold calculateWPM
  apply List.sum_nonneg
  intro x hx
  obtain ⟨e, _, rfl⟩ := List.mem_map.mp hx
  exact countWords_nonneg e.text

theorem calculateWPM_append_single (now : ℚ) (editHistory : List EditEvent)
    (e : EditEvent) :
    calculateWPM now (editHistory ++ [e]) = calculateWPM now editHistory +
      (if e.timestamp > now - 60000 then countWords e.text else 0) := by
  unfold calculateWPM
  rw [List.filter_append]
  by_cases h : e.timestamp > now - 60000
  · simp [h]
  · simp [h]

theorem filter_filter_of_imp (p q : α → Bool)
    (himp : ∀ a, q a = true → p a = true) :
    ∀ l : List α, (l.filter p).filter q = l.filter q := by
  intro l
  induction l with
  | nil => simp
  | cons a rest ih =>
    by_cases hq : q a = true
    · have hp := himp a hq
      simp only [List.filter_cons, hp, hq, if_true]
      rw [ih]
    · by_cases hp : p a = true
      · simp only [List.filter_cons, hp, hq, if_true, Bool.false_eq_true,
          if_false]
        rw [ih]
      · simp only [List.filter_cons, hp, hq, Bool.false_eq_true, if_false]
        rw [ih]

theorem calculateWPM_prune (now cut : ℚ) (hcut : cut ≤ now - 60000)
    (editHistory : List EditEvent) :
    calculateWPM now (editHistory.filter (fun e => e.timestamp > cut))
      = calculateWPM now editHistory := by
  unfold calculateWPM
  rw [filter_filter_of_imp]
  intro e he
  simp only [decide_eq_true_eq] at he ⊢
  linarith

theorem countWords_empty : countWords "" = 0 := rfl

theorem getAddedText_eq_inserted (oldText newText : String)
    (hlt : oldText.length < newText.length)
    (hle : newText.length - oldText.length ≤ 50) :
    getAddedText oldText newText = insertedText oldText newText := by
  unfold getAddedText insertedText
  dsimp only
  rw [if_neg (by push_cast; omega), if_pos (by push_cast; omega),
    if_pos hlt]
  have harg : ((newText.length : ℤ) -
      ((newText.length : ℤ) - oldText.length)).toNat = oldText.length := by
    omega
  rw [harg]

theorem getAddedText_empty_of_le (oldText newText : String)
    (h : newText.length ≤ oldText.length) :
    getAddedText oldText newText = "" := by
  unfold getAddedText
  dsimp only
  rw [if_neg (by push_cast; omega), if_neg (by push_cast; omega)]

theorem getAddedText_empty_of_big (oldText newText : String)
    (h : oldText.length + 50 < newText.length) :
    getAddedText oldText newText = "" := by
  unfold getAddedText
  dsimp only
  rw [if_pos (by push_cast; omega)]

theorem getAddedText_ne_empty (oldText newText : String)
    (hlt : oldText.length < newText.length)
    (hle : newText.length - oldText.length ≤ 50) :
    getAddedText oldText newText ≠ "" := by
  rw [getAddedText_eq_inserted oldText newText hlt hle]
  unfold insertedText
  rw [if_pos hlt]
  intro hcontr
  have hdata := congrArg String.data hcontr
  have hlen := congrArg List.length hdata
  simp only [List.length_drop] at hlen
  have htl : newText.toList.length = newText.length := rfl
  rw [htl] at hlen
  simp at hlen
  omega

theorem getRemovedText_empty_of_le (oldText newText : String)
    (h : oldText.length ≤ newText.length) :
    getRemovedText oldText newText = "" := by
  unfold getRemovedText
  rw [if_neg (by omega)]

theorem getRemovedText_length (oldText newText : String)
    (h : newText.length < oldText.length) :
    (getRemovedText oldText newText).length =
      oldText.length - newText.length := by
  unfold getRemovedText
  rw [if_pos h]
  show (oldText.toList.drop
      (oldText.length - (oldText.length - newText.length))).length = _
  rw [List.length_drop]
  have htl : oldText.toList.length = oldText.length := rfl
  rw [htl]
  omega

theorem onEditorChange_notFirst_rec (now : ℚ) (t : String) (s : SensorState)
    (hs : s.isFirstEdit = false)
    (hrec : getAddedText s.lastText t ≠ "" ∨ getRemovedText s.lastText t ≠ "") :
    onEditorChange now t s =
      { s with
        lastText := t,
        editHistory :=
          (s.editHistory ++
              [(⟨now, getAddedText s.lastText t,
                  getRemovedText s.lastText t⟩ : EditEvent)]).filter
            (fun e => e.timestamp > now - 600000),
        lastEditTime := now } := by
  unfold onEditorChange
  rw [if_neg (by simp [hs])]
  dsimp only
  rw [if_pos hrec]

theorem onEditorChange_notFirst_norec (now : ℚ) (t : String) (s : SensorState)
    (hs : s.isFirstEdit = false)
    (hrec : ¬(getAddedText s.lastText t ≠ "" ∨ getRemovedText s.lastText t ≠ "")) :
    onEditorChange now t s = { s with lastText := t } := by
  unfold onEditorChange
  rw [if_neg (by simp [hs])]
  dsimp only
  rw [if_neg hrec]

theorem runSensor_wpm (now : ℚ) :
    ∀ (cs : List RawChange) (s : SensorState),
    s.isFirstEdit = false →
    (∀ c ∈ cs, c.now ≤ now) →
    calculateWPM now (runSensor s cs).editHistory
      = calculateWPM now s.editHistory + specWpmSum now s.lastText cs := by
  intro cs
  induction cs with
  | nil =>
    intro s _ _
    simp [runSensor, specWpmSum]
  | cons c rest ih =>
    intro s hs hbound
    have hcnow : c.now ≤ now := hbound c (by simp)
    have hrun : runSensor s (c :: rest)
        = runSensor (onEditorChange c.now c.text s) rest := rfl
    rw [hrun]
    by_cases hrec : getAddedText s.lastText c.text ≠ "" ∨
        getRemovedText s.lastText c.text ≠ ""
    · rw [onEditorChange_notFirst_rec c.now c.text s hs hrec]
      rw [ih _ (by simpa using hs)
        (fun x hx => hbound x (List.mem_cons_of_mem _ hx))]
      simp only [specWpmSum]
      rw [calculateWPM_prune now (c.now - 600000) (by linarith) _]
      rw [calculateWPM_append_single]
      have hifs : (if c.now > now - 60000
            then countWords (getAddedText s.lastText c.text) else 0)
          = (if c.now > now - 60000 ∧ s.lastText.length < c.text.length ∧
                c.text.length - s.lastText.length ≤ 50
             then countWords (insertedText s.lastText c.text) else 0) := by
        rcases Nat.lt_or_ge s.lastText.length c.text.length with hlt | hge
        · rcases le_or_lt (c.text.length - s.lastText.length) 50 with hle | hgt
          · rw [getAddedText_eq_inserted _ _ hlt hle]
            by_cases hw : c.now > now - 60000
            · rw [if_pos hw, if_pos ⟨hw, hlt, hle⟩]
            · rw [if_neg hw, if_neg (fun h => hw h.1)]
          · exfalso
            rcases hrec with ha | hr
            · exact ha (getAddedText_empty_of_big _ _ (by omega))
            · exact hr (getRemovedText_empty_of_le _ _ (le_of_lt hlt))
        · rw [getAddedText_empty_of_le _ _ hge, countWords_empty]
          have h0 : (if c.now > now - 60000 ∧ s.lastText.length < c.text.length ∧
                c.text.length - s.lastText.length ≤ 50
              then countWords (insertedText s.lastText c.text) else 0) = 0 :=
            if_neg (fun h => absurd h.2.1 (not_lt.mpr hge))
          rw [h0]
          simp
      rw [hifs]
      ring
    · rw [onEditorChange_notFirst_norec c.now c.text s hs hrec]
      rw [ih _ (by simpa using hs)
        (fun x hx => hbound x (List.mem_cons_of_mem _ hx))]
      simp only [specWpmSum]
      push_neg at hrec
      have h0 : (if c.now > now - 60000 ∧ s.lastText.length < c.text.length ∧
            c.text.length - s.lastText.length ≤ 50
          then countWords (insertedText s.lastText c.text) else 0) = 0 := by
        rw [if_neg]
        intro h
        exact absurd hrec.1 (getAddedText_ne_empty _ _ h.2.1 h.2.2)
      rw [h0]
      ring

/-- The witness trace for C1: a 5-character typed insertion at t=100000
followed by a 61-character paste at t=110000. -/
def sampleChanges : List RawChange :=
  [⟨100000, "start here"⟩,
   ⟨110000, "start here0123456789012345678901234567890123456789012345678901234567890"⟩]

end SensorV2

/-- C1: starting from the initial file-load call with document `d0`, for
every sequence of editor changes whose timestamps are at most the
recomputation time `now`, the wpm value is nonnegative and equals the sum
of word counts of the inserted text of exactly those changes whose
timestamp lies in the trailing 60-second window, with any single
insertion longer than 50 characters excluded; a deletion's recorded
removed text is never truncated by that rule (its length is always the
full shrinkage). -/
theorem wpm_window_paste_spec (d0 : String) (t0 now : ℚ)
    (changes : List SensorV2.RawChange) (oldText newText : String)
    (hbound : ∀ c ∈ changes, c.now ≤ now)
    (hshrink : newText.length < oldText.length) :
    0 ≤ SensorV2.calculateWPM now
      (SensorV2.runSensor
        (SensorV2.onEditorChange t0 d0 (SensorV2.initialSensor t0))
        changes).editHistory ∧
    SensorV2.calculateWPM now
      (SensorV2.runSensor
        (SensorV2.onEditorChange t0 d0 (SensorV2.initialSensor t0))
        changes).editHistory
      = SensorV2.specWpmSum now d0 changes ∧
    (SensorV2.getRemovedText oldText newText).length
      = oldText.length - newText.length := by
  refine ⟨SensorV2.calculateWPM_nonneg now _, ?_,
    SensorV2.getRemovedText_length oldText newText hshrink⟩
  have hinit : SensorV2.onEditorChange t0 d0 (SensorV2.initialSensor t0)
      = { lastText := d0, lastEditTime := t0, editHistory := [],
          isFirstEdit := false, isPaused := false, currentFilePath := "" } := rfl
  rw [hinit, SensorV2.runSensor_wpm now changes _ rfl hbound]
  show SensorV2.calculateWPM now [] + _ = _
  have hnil : SensorV2.calculateWPM now [] = 0 := rfl
  rw [hnil, zero_add]

/-- Closed instantiation of C1 on the sample trace with recomputation
time 150000 and a concrete shrinking edit. -/
theorem wpm_window_paste_spec_witness :
    0 ≤ SensorV2.calculateWPM 150000
      (SensorV2.runSensor
        (SensorV2.onEditorChange 0 "start" (SensorV2.initialSensor 0))
        SensorV2.sampleChanges).editHistory ∧
    SensorV2.calculateWPM 150000
      (SensorV2.runSensor
        (SensorV2.onEditorChange 0 "start" (SensorV2.initialSensor 0))
        SensorV2.sampleChanges).editHistory
      = SensorV2.specWpmSum 150000 "start" SensorV2.sampleChanges ∧
    (SensorV2.getRemovedText "abcdef" "abc").length
      = "abcdef".length - "abc".length :=
  wpm_window_paste_spec "start" 0 150000 SensorV2.sampleChanges "abcdef" "abc"
    (by
      intro c hc
      simp only [SensorV2.sampleChanges, List.mem_cons,
        List.not_mem_nil, or_false] at hc
      rcases hc with h | h <;> subst h <;> norm_num)
    (by decide)
